import Mathlib

/-!
Verification of the Garrido Sportech commercial-agent repository.

This file shallowly embeds the parts of the code the checked claims are
about: the product catalog module (`catalog.py`), the tool registry
(`tools.py`), the message-sanitization projection and the ReAct agent loop
(`agent.py`), together with the configuration defaults (`config.py`).
Python strings are modelled by `String`, Python ints by `Int`, `dict` by
association lists in insertion order, and fallible code by `Except`/`Option`.
-/

set_option maxHeartbeats 1000000
set_option maxRecDepth 8000

namespace GarridoSportech

/-! ## Python string primitives

`pyLower`/`pyUpper` model `str.lower()`/`str.upper()` (character-wise ASCII
case mapping, which agrees with Python on every string occurring in the
repository). `pyIn` models the Python substring test `sub in s`. -/

def pyCharLower (c : Char) : Char :=
  if 65 ≤ c.toNat ∧ c.toNat ≤ 90 then Char.ofNat (c.toNat + 32) else c

def pyCharUpper (c : Char) : Char :=
  if 97 ≤ c.toNat ∧ c.toNat ≤ 122 then Char.ofNat (c.toNat - 32) else c

def pyLower (s : String) : String :=
  String.mk (s.toList.map pyCharLower)

def pyUpper (s : String) : String :=
  String.mk (s.toList.map pyCharUpper)

/-- `leadsWith sub l` is true when `sub` occurs at the start of `l`. -/
def leadsWith : List Char → List Char → Bool
  | [], _ => true
  | _ :: _, [] => false
  | a :: as, b :: bs => a == b && leadsWith as bs

/-- `subIn sub l` is true when `sub` occurs contiguously somewhere in `l`. -/
def subIn : List Char → List Char → Bool
  | sub, [] => sub.isEmpty
  | sub, c :: rest => leadsWith sub (c :: rest) || subIn sub rest

/-- Python substring containment: `pyIn sub s` models `sub in s`. -/
def pyIn (sub s : String) : Bool :=
  subIn sub.toList s.toList

/-! ## catalog.py : data model -/

structure Product where
  id : String
  name : String
  category : String
  description : String
  specs : List (String × String)
  price : Int
  includes : List String
  use_cases : List String
  tags : List String
  compatible_with : List String
  technical_notes : List String
  deriving Repr, DecidableEq

def productAlpha : Product :=
  { id := "GF-ALPHA"
    name := "G-FORCE α (Alpha)"
    category := "Placas de Fuerza"
    description :=
      "Sistema de placas de fuerza para evaluación de saltos e isometrías. " ++
      "Conjunto de 2 placas con 4 celdas por placa y 1 canal por placa. " ++
      "Incluye software propio de adquisición y análisis desarrollado en Python."
    specs :=
      [("Configuración", "Conjunto de 2 placas de fuerza"),
       ("Sensórica", "4 celdas por placa"),
       ("Canales", "1 canal por placa"),
       ("Frecuencia de análisis", "Hasta 1000 Hz"),
       ("Variables disponibles", "Fuerza, curva fuerza-tiempo, impulso, RFD y métricas derivadas (según software y protocolo)"),
       ("Exportación de datos", "CSV y otros formatos definidos por el software"),
       ("Fabricación", "Chilena 🇨🇱")]
    price := 850000
    includes :=
      ["2 placas de fuerza (4 celdas c/u)",
       "Software propio de adquisición y análisis (Python)",
       "Soporte técnico"]
    use_cases :=
      ["Evaluación de saltos: CMJ, SJ, DJ",
       "Evaluación de isometrías (según configuración)",
       "Análisis de curva fuerza-tiempo",
       "Cálculo de RFD e impulso"]
    tags := ["fuerza", "placa", "salto", "CMJ", "SJ", "DJ", "isometría", "RFD", "impulso", "curva fuerza-tiempo"]
    compatible_with := ["GF-CELL"]
    technical_notes := ["Frecuencia de análisis hasta 1000 Hz."] }

def productCell : Product :=
  { id := "GF-CELL"
    name := "G-FORCE (Celda Individual)"
    category := "Celdas de Carga"
    description :=
      "Celda de carga tipo S de 500 kg con adaptadores de muslo. " ++
      "Diseñada para pruebas isométricas: IMTP, aducción, abducción, " ++
      "empujes y tracciones según montaje."
    specs :=
      [("Tipo de celda", "Tipo S"),
       ("Capacidad nominal", "500 kg"),
       ("Frecuencia de análisis", "Hasta 1000 Hz"),
       ("Métricas disponibles", "Fuerza máxima, curva fuerza-tiempo, impulso, RFD (según software y protocolo)"),
       ("Exportación de datos", "CSV y otros formatos"),
       ("Fabricación", "Chilena 🇨🇱")]
    price := 300000
    includes :=
      ["Celda de carga tipo S (500 kg)",
       "Adaptadores de muslo",
       "Software propio en Python",
       "Soporte técnico"]
    use_cases :=
      ["IMTP (Isometric Mid-Thigh Pull)",
       "Aducción isométrica",
       "Abducción isométrica",
       "Empujes y tracciones isométricas (según montaje)"]
    tags := ["fuerza", "celda", "isometría", "IMTP", "aducción", "abducción", "tipo S", "500kg"]
    compatible_with := ["GF-ALPHA"]
    technical_notes :=
      ["Frecuencia de análisis hasta 1000 Hz.",
       "Las pruebas posibles dependen del montaje y adaptadores utilizados."] }

def productJump : Product :=
  { id := "GJ-001"
    name := "G-JUMP (Plataforma de Contacto)"
    category := "Plataformas de Contacto"
    description :=
      "Plataforma de contacto refaccionada para medición práctica en terreno. " ++
      "Mide tiempo de vuelo y tiempo de contacto, calcula altura estimada de salto " ++
      "y RSI-mod. Software desarrollado en Python con librerías de pygame."
    specs :=
      [("Tipo", "Plataforma de contacto refaccionada"),
       ("Qué mide", "Tiempo de vuelo y tiempo de contacto"),
       ("Qué calcula", "Altura estimada de salto (por tiempo de vuelo) y RSI-mod"),
       ("Software", "Desarrollado en Python (pygame)"),
       ("Enfoque", "Medición práctica en terreno"),
       ("Fabricación", "Chilena 🇨🇱")]
    price := 95000
    includes :=
      ["Plataforma de contacto",
       "Software propio (Python/pygame)",
       "Soporte técnico"]
    use_cases :=
      ["Medición de altura de salto en terreno",
       "Evaluación de RSI-mod (Reactive Strength Index modificado)",
       "Monitoreo práctico de rendimiento en salto"]
    tags := ["salto", "contacto", "vuelo", "RSI", "altura", "terreno", "plataforma"]
    compatible_with := ["GF-ALPHA"]
    technical_notes :=
      ["La altura de salto se estima por tiempo de vuelo, no por medición directa de desplazamiento.",
       "RSI-mod = altura de salto / tiempo de contacto."] }

def CATALOG : List Product := [productAlpha, productCell, productJump]

/-! ## catalog.py : lookup and search

`_BY_ID` is the id-keyed dictionary `{p.id: p for p in CATALOG}`; we model it
as an association list (product ids are distinct, so first-match lookup agrees
with the Python dict). The lookup is parameterized by the backing catalog so
that the behaviour on dangling compatibility references (a referenced id that
no longer resolves) is expressible. -/

def byIdIndex (cat : List Product) : List (String × Product) :=
  cat.map (fun p => (p.id, p))

def assocGet : List (String × Product) → String → Option Product
  | [], _ => none
  | (k, v) :: rest, key => if k == key then some v else assocGet rest key

def get_product_by_id_in (cat : List Product) (product_id : String) : Option Product :=
  assocGet (byIdIndex cat) (pyUpper product_id)

def get_product_by_id (product_id : String) : Option Product :=
  get_product_by_id_in CATALOG product_id

/-- The searchable text built inside `search_products`: name, description,
tags, spec values, use-cases and category joined with spaces.  Every
component is lowercased except the tags, which are joined as written. -/
def searchableText (p : Product) : String :=
  String.intercalate " "
    [pyLower p.name,
     pyLower p.description,
     String.intercalate " " p.tags,
     pyLower (String.intercalate " " (p.specs.map Prod.snd)),
     pyLower (String.intercalate " " p.use_cases),
     pyLower p.category]

/-- The price filter `max_price is not None and p.price > max_price`. -/
def priceExceeds (max_price : Option Int) (price : Int) : Bool :=
  match max_price with
  | some m => decide (price > m)
  | none => false

def searchFilter (query_lower category : String) (max_price : Option Int) :
    List Product → List Product
  | [] => []
  | p :: rest =>
    if category ≠ "" ∧ pyLower p.category ≠ pyLower category then
      searchFilter query_lower category max_price rest
    else if priceExceeds max_price p.price then
      searchFilter query_lower category max_price rest
    else if query_lower ≠ "" ∧ pyIn query_lower (searchableText p) = false then
      searchFilter query_lower category max_price rest
    else
      p :: searchFilter query_lower category max_price rest

def search_products (query : String := "") (category : String := "")
    (max_price : Option Int := none) : List Product :=
  searchFilter (pyLower query) category max_price CATALOG

def insertSorted (s : String) : List String → List String
  | [] => [s]
  | t :: rest => if s ≤ t then s :: t :: rest else t :: insertSorted s rest

/-- Insertion sort on strings, modelling Python `sorted`. -/
def sortStrings : List String → List String
  | [] => []
  | s :: rest => insertSorted s (sortStrings rest)

def get_categories : List String :=
  sortStrings (CATALOG.map Product.category).dedup

def get_all_products : List Product := CATALOG

/-! ## catalog.py : quotes

`iva = round(subtotal * 0.19)` in catalog.py runs in IEEE-754 double
precision: the integer `subtotal` is converted to the nearest double, that
double is multiplied by the double nearest to the literal 0.19 with one more
rounding, and Python `round` then picks the nearest integer (ties to even) of
the resulting double's exact rational value.  Doubles are rationals, so the
whole pipeline is modelled exactly over ℚ: `flRound` is correct rounding to
53 significant bits (the finite double range is ample for every quantity
considered; overflow to infinity is not modelled). -/

/-- Python `round` (banker's rounding: ties go to the even integer), on the
exact rational value. -/
def pyRound (q : ℚ) : ℤ :=
  let f : ℤ := ⌊q⌋
  let r : ℚ := q - f
  if r < 1/2 then f
  else if r > 1/2 then f + 1
  else if f % 2 = 0 then f else f + 1

/-- Scale `q` by powers of two into the binade `[2^52, 2^53)`, returning the
scaled value and the accumulated exponent: the result `(x, e2)` satisfies
`x * 2^e2 = q * 2^e`.  The fuel covers the whole double range. -/
def scaleTo : Nat → ℚ → ℤ → ℚ × ℤ
  | 0, q, e => (q, e)
  | fuel + 1, q, e =>
    if q < 4503599627370496 then scaleTo fuel (2 * q) (e - 1)
    else if 9007199254740992 ≤ q then scaleTo fuel (q / 2) (e + 1)
    else (q, e)

/-- Correct rounding of a positive rational to 53 significant bits
(round-to-nearest, ties to even): the nearest IEEE-754 double. -/
def flRoundPos (q : ℚ) : ℚ :=
  ((pyRound (scaleTo 4200 q 0).1 : ℤ) : ℚ) * (2 : ℚ) ^ (scaleTo 4200 q 0).2

/-- The double nearest to a rational, extended to zero and negatives by
symmetry. -/
def flRound (q : ℚ) : ℚ :=
  if q = 0 then 0
  else if q < 0 then -(flRoundPos (-q))
  else flRoundPos q

/-- The IEEE-754 double nearest to the literal `0.19`:
`6845471433603154 / 2^55 = 19/100 + 1/(25 * 2^54)`. -/
def c19 : ℚ := 6845471433603154 / 36028797018963968

structure Quote where
  product_id : String
  product_name : String
  quantity : Int
  unit_price_clp : Int
  subtotal_neto : Int
  iva_19 : Int
  total_con_iva : Int
  currency : String
  nota : String
  envio : String
  deriving Repr, DecidableEq

def calculate_quote (product_id : String) (quantity : Int) : Except String Quote :=
  match get_product_by_id product_id with
  | none => .error ("Producto " ++ product_id ++ " no encontrado.")
  | some product =>
    let unit_price := product.price
    let subtotal := unit_price * quantity
    let iva := pyRound (flRound (flRound ((subtotal : ℤ) : ℚ) * c19))
    let total_con_iva := subtotal + iva
    .ok
      { product_id := product.id
        product_name := product.name
        quantity := quantity
        unit_price_clp := unit_price
        subtotal_neto := subtotal
        iva_19 := iva
        total_con_iva := total_con_iva
        currency := "CLP"
        nota := "Precios en pesos chilenos. IVA 19% incluido en total."
        envio := "Envíos a todo Chile y Latinoamérica." }

/-! ## catalog.py : compatible products -/

def get_compatible_products_in (cat : List Product) (product_id : String) :
    List Product :=
  match get_product_by_id_in cat product_id with
  | none => []
  | some product => product.compatible_with.filterMap (get_product_by_id_in cat)

def get_compatible_products (product_id : String) : List Product :=
  get_compatible_products_in CATALOG product_id

/-! ## Python dynamic values

`PyVal` models the Python values manipulated by `_sanitize_message`,
`json.loads` / `json.dumps` and tool arguments: strings, ints, booleans,
`None`, lists, and string-keyed dicts in insertion order. -/

inductive PyVal where
  | str (s : String)
  | int (n : Int)
  | bool (b : Bool)
  | pynone
  | list (xs : List PyVal)
  | dict (entries : List (String × PyVal))
  deriving Repr, BEq

/-- Python truthiness of a `PyVal`. -/
def pyTruthy : PyVal → Bool
  | .str s => s ≠ ""
  | .int n => n ≠ 0
  | .bool b => b
  | .pynone => false
  | .list xs => !xs.isEmpty
  | .dict es => !es.isEmpty

/-- First-match association lookup (dict keys are unique in all dicts we
build, so this agrees with the Python dict). -/
def entGet : List (String × PyVal) → String → Option PyVal
  | [], _ => none
  | (k, v) :: rest, key => if k == key then some v else entGet rest key

/-- `d.get(key, default)`. -/
def pyGet (entries : List (String × PyVal)) (key : String) (default : PyVal) : PyVal :=
  (entGet entries key).getD default

/-- Python errors that the embedded code can raise. -/
inductive PyErr where
  | keyError (key : String)
  | typeError
  | jsonError
  deriving Repr, DecidableEq

/-- `d[key]`, raising `KeyError` when absent. -/
def pySubscript (entries : List (String × PyVal)) (key : String) : Except PyErr PyVal :=
  match entGet entries key with
  | some v => .ok v
  | none => .error (.keyError key)

/-- Python iteration `for x in v`: lists yield elements, strings yield
one-character strings, dicts yield their keys; other values raise. -/
def pyIter : PyVal → Except PyErr (List PyVal)
  | .list xs => .ok xs
  | .str s => .ok (s.toList.map (fun c => .str (String.mk [c])))
  | .dict es => .ok (es.map (fun e => .str e.fst))
  | _ => .error .typeError

/-! ## json.dumps (ensure_ascii=False) -/

/-- JSON string escaping (with `ensure_ascii=False` only the quote, the
backslash and control characters are escaped; no string in this repository
contains further control characters than the newline). -/
def jsonEscapeChar (c : Char) : String :=
  if c = '"' then "\\\""
  else if c = '\\' then "\\\\"
  else if c = '\n' then "\\n"
  else if c = '\t' then "\\t"
  else if c = '\r' then "\\r"
  else String.mk [c]

def jsonEscape (s : String) : String :=
  String.join (s.toList.map jsonEscapeChar)

def jsonQuote (s : String) : String :=
  "\"" ++ jsonEscape s ++ "\""

mutual

/-- `json.dumps(v, ensure_ascii=False)` with the default separators. -/
def dumps : PyVal → String
  | .str s => jsonQuote s
  | .int n => toString n
  | .bool b => if b then "true" else "false"
  | .pynone => "null"
  | .list xs => "[" ++ String.intercalate ", " (dumpsList xs) ++ "]"
  | .dict es => "\x7b" ++ String.intercalate ", " (dumpsEntries es) ++ "\x7d"

def dumpsList : List PyVal → List String
  | [] => []
  | v :: vs => dumps v :: dumpsList vs

def dumpsEntries : List (String × PyVal) → List String
  | [] => []
  | (k, v) :: es => (jsonQuote k ++ ": " ++ dumps v) :: dumpsEntries es

end

/-- Two spaces of indentation per level (`indent=2`). -/
def pad (d : Nat) : String :=
  String.mk (List.replicate (2 * d) ' ')

def indentBy (d : Nat) (item : String) : String :=
  pad d ++ item

mutual

/-- `json.dumps(v, ensure_ascii=False, indent=2)` at nesting depth `d`. -/
def dumpsInd (d : Nat) : PyVal → String
  | .str s => jsonQuote s
  | .int n => toString n
  | .bool b => if b then "true" else "false"
  | .pynone => "null"
  | .list xs =>
    match dumpsIndList (d + 1) xs with
    | [] => "[]"
    | items =>
      "[\n" ++ String.intercalate ",\n" (items.map (indentBy (d + 1))) ++
      "\n" ++ pad d ++ "]"
  | .dict es =>
    match dumpsIndEntries (d + 1) es with
    | [] => "\x7b\x7d"
    | items =>
      "\x7b\n" ++ String.intercalate ",\n" (items.map (indentBy (d + 1))) ++
      "\n" ++ pad d ++ "\x7d"

def dumpsIndList (d : Nat) : List PyVal → List String
  | [] => []
  | v :: vs => dumpsInd d v :: dumpsIndList d vs

def dumpsIndEntries (d : Nat) : List (String × PyVal) → List String
  | [] => []
  | (k, v) :: es => (jsonQuote k ++ ": " ++ dumpsInd d v) :: dumpsIndEntries d es

end

/-- Top-level `json.dumps(v, ensure_ascii=False, indent=2)`. -/
def dumps2 (v : PyVal) : String :=
  dumpsInd 0 v

/-! ## json.loads

A fuel-indexed recursive-descent parser for the JSON fragment the agent can
receive as tool-call arguments: objects, arrays, strings (with the basic
escapes), integers, booleans and null. `jsonLoads s` models `json.loads(s)`,
returning `none` where Python raises `json.JSONDecodeError`. -/

def jsonWs : List Char → List Char
  | c :: rest => if c = ' ' ∨ c = '\n' ∨ c = '\t' ∨ c = '\r' then jsonWs rest else c :: rest
  | [] => []

def parseJsonString : List Char → Option (String × List Char)
  | [] => none
  | c :: rest =>
    if c = '"' then some ("", rest)
    else if c = '\\' then
      match rest with
      | [] => none
      | e :: rest2 =>
        let dec : Option Char :=
          if e = '"' then some '"'
          else if e = '\\' then some '\\'
          else if e = '/' then some '/'
          else if e = 'n' then some '\n'
          else if e = 't' then some '\t'
          else if e = 'r' then some '\r'
          else none
        match dec with
        | none => none
        | some ch =>
          match parseJsonString rest2 with
          | some (s, rem) => some (String.mk [ch] ++ s, rem)
          | none => none
    else
      match parseJsonString rest with
      | some (s, rem) => some (String.mk [c] ++ s, rem)
      | none => none

def parseDigits : List Char → Option (Nat × List Char)
  | cs =>
    let ds := cs.takeWhile Char.isDigit
    let rest := cs.dropWhile Char.isDigit
    if ds.isEmpty then none
    else some (ds.foldl (fun acc c => acc * 10 + (c.toNat - 48)) 0, rest)

def parseJsonInt : List Char → Option (Int × List Char)
  | '-' :: cs =>
    match parseDigits cs with
    | some (n, rest) => some (-(n : Int), rest)
    | none => none
  | cs =>
    match parseDigits cs with
    | some (n, rest) => some ((n : Int), rest)
    | none => none

mutual

def parseJsonVal (fuel : Nat) (cs : List Char) : Option (PyVal × List Char) :=
  match fuel with
  | 0 => none
  | fuel + 1 =>
    match jsonWs cs with
    | [] => none
    | c :: rest =>
      if c = '"' then
        match parseJsonString rest with
        | some (s, rem) => some (.str s, rem)
        | none => none
      else if c = '\x7b' then
        parseJsonObj fuel (jsonWs rest) true
      else if c = '[' then
        parseJsonArr fuel (jsonWs rest) true
      else if c = 't' then
        if rest.take 3 = ['r', 'u', 'e'] then some (.bool true, rest.drop 3) else none
      else if c = 'f' then
        if rest.take 4 = ['a', 'l', 's', 'e'] then some (.bool false, rest.drop 4) else none
      else if c = 'n' then
        if rest.take 3 = ['u', 'l', 'l'] then some (.pynone, rest.drop 3) else none
      else
        match parseJsonInt (c :: rest) with
        | some (n, rem) => some (.int n, rem)
        | none => none

def parseJsonObj (fuel : Nat) (cs : List Char) (first : Bool) :
    Option (PyVal × List Char) :=
  match fuel with
  | 0 => none
  | fuel + 1 =>
    match cs with
    | '\x7d' :: rest => if first then some (.dict [], rest) else none
    | _ =>
      match jsonWs cs with
      | '"' :: rest =>
        match parseJsonString rest with
        | none => none
        | some (k, rem) =>
          match jsonWs rem with
          | ':' :: rem2 =>
            match parseJsonVal fuel rem2 with
            | none => none
            | some (v, rem3) =>
              match jsonWs rem3 with
              | ',' :: rem4 =>
                match parseJsonObj fuel (jsonWs rem4) false with
                | some (.dict es, rem5) => some (.dict ((k, v) :: es), rem5)
                | _ => none
              | '\x7d' :: rem4 => some (.dict [(k, v)], rem4)
              | _ => none
          | _ => none
      | _ => none

def parseJsonArr (fuel : Nat) (cs : List Char) (first : Bool) :
    Option (PyVal × List Char) :=
  match fuel with
  | 0 => none
  | fuel + 1 =>
    match cs with
    | ']' :: rest => if first then some (.list [], rest) else none
    | _ =>
      match parseJsonVal fuel cs with
      | none => none
      | some (v, rem) =>
        match jsonWs rem with
        | ',' :: rem2 =>
          match parseJsonArr fuel (jsonWs rem2) false with
          | some (.list vs, rem3) => some (.list (v :: vs), rem3)
          | _ => none
        | ']' :: rem2 => some (.list [v], rem2)
        | _ => none

end

/-- `json.loads` on a whole string. -/
def jsonLoads (s : String) : Option PyVal :=
  match parseJsonVal (s.length + 1) s.toList with
  | some (v, rem) => if (jsonWs rem).isEmpty then some v else none
  | none => none

/-! ## agent.py : _sanitize_message -/

/-- The inner loop of the assistant branch of `_sanitize_message`: keeps the
dict entries `id` (required), `type` (defaulted to "function") and
`function` (required) of every element that is a dict, skipping the rest.
A missing `id` or `function` key raises `KeyError`. -/
def sanitizeToolCalls : List PyVal → Except PyErr (List PyVal)
  | [] => .ok []
  | tc :: rest =>
    match tc with
    | .dict tce =>
      match pySubscript tce "id" with
      | .error e => .error e
      | .ok idv =>
        let tv := pyGet tce "type" (.str "function")
        match pySubscript tce "function" with
        | .error e => .error e
        | .ok fnv =>
          match sanitizeToolCalls rest with
          | .error e => .error e
          | .ok others =>
            .ok (.dict [("id", idv), ("type", tv), ("function", fnv)] :: others)
    | _ => sanitizeToolCalls rest

/-- Python `v == "lit"`: true exactly when `v` is that string. -/
def isStrEq (v : PyVal) (s : String) : Bool :=
  match v with
  | .str t => t == s
  | _ => false

/-- `_sanitize_message` from agent.py: the per-role whitelist projection of a
message dict. -/
def _sanitize_message (msg : List (String × PyVal)) : Except PyErr (List (String × PyVal)) :=
  let role := pyGet msg "role" (.str "")
  if isStrEq role "system" then
    .ok [("role", .str "system"), ("content", pyGet msg "content" (.str ""))]
  else if isStrEq role "user" then
    .ok [("role", .str "user"), ("content", pyGet msg "content" (.str ""))]
  else if isStrEq role "assistant" then
    let contentRaw := pyGet msg "content" .pynone
    let content := if pyTruthy contentRaw then contentRaw else .str ""
    let base := [("role", .str "assistant"), ("content", content)]
    let tcv := pyGet msg "tool_calls" .pynone
    if pyTruthy tcv then
      match pyIter tcv with
      | .error e => .error e
      | .ok elems =>
        match sanitizeToolCalls elems with
        | .error e => .error e
        | .ok cleaned =>
          if cleaned.isEmpty then .ok base
          else .ok (base ++ [("tool_calls", .list cleaned)])
    else .ok base
  else if isStrEq role "tool" then
    .ok [("role", .str "tool"),
         ("tool_call_id", pyGet msg "tool_call_id" (.str "")),
         ("content", pyGet msg "content" (.str ""))]
  else
    .ok [("role", role), ("content", pyGet msg "content" (.str ""))]

/-! ## tools.py : serialization helpers -/

/-- Thousands grouping of a digit string given in reverse order. -/
def groupRev : List Char → List Char
  | a :: b :: c :: d :: rest => a :: b :: c :: '.' :: groupRev (d :: rest)
  | l => l

/-- `f"$\x7bp.price:,\x7d CLP + IVA".replace(",", ".")` from tools.py. -/
def formatPriceCLP (n : Int) : String :=
  let digits := (toString n.natAbs).toList
  let grouped := String.mk ((groupRev digits.reverse).reverse)
  let signPart := if n < 0 then "-" else ""
  "$" ++ signPart ++ grouped ++ " CLP + IVA"

/-- `_product_summary` from tools.py. -/
def _product_summary (p : Product) : PyVal :=
  .dict
    [("id", .str p.id),
     ("name", .str p.name),
     ("category", .str p.category),
     ("description", .str p.description),
     ("price_clp", .str (formatPriceCLP p.price)),
     ("specs", .dict (p.specs.map (fun e => (e.fst, PyVal.str e.snd)))),
     ("includes", .list (p.includes.map PyVal.str)),
     ("use_cases", .list (p.use_cases.map PyVal.str)),
     ("tags", .list (p.tags.map PyVal.str)),
     ("technical_notes", .list (p.technical_notes.map PyVal.str))]

/-- `_product_brief` from tools.py. -/
def _product_brief (p : Product) : PyVal :=
  let desc :=
    if p.description.length > 120 then
      String.mk (p.description.toList.take 120) ++ "..."
    else p.description
  .dict
    [("id", .str p.id),
     ("name", .str p.name),
     ("category", .str p.category),
     ("description", .str desc),
     ("price_clp", .str (formatPriceCLP p.price))]

/-- The quote dict returned by `calculate_quote` (either the error payload or
the full quotation dict), as serialized by the `cotizar` tool. -/
def quoteToPy : Except String Quote → PyVal
  | .error m => .dict [("error", .str m)]
  | .ok q =>
    .dict
      [("product_id", .str q.product_id),
       ("product_name", .str q.product_name),
       ("quantity", .int q.quantity),
       ("unit_price_clp", .int q.unit_price_clp),
       ("subtotal_neto", .int q.subtotal_neto),
       ("iva_19", .int q.iva_19),
       ("total_con_iva", .int q.total_con_iva),
       ("currency", .str q.currency),
       ("nota", .str q.nota),
       ("envio", .str q.envio)]

/-! ## tools.py : execute_tool

Argument extraction helpers model the Python failure on ill-typed payloads
(`KeyError` on a missing required key; `TypeError` standing for the
`TypeError` / `AttributeError` Python raises further down when a value of the
wrong shape is used). -/

def pyvGet (v : PyVal) (key : String) (default : PyVal) : Except PyErr PyVal :=
  match v with
  | .dict es => .ok (pyGet es key default)
  | _ => .error .typeError

def pyvSub (v : PyVal) (key : String) : Except PyErr PyVal :=
  match v with
  | .dict es => pySubscript es key
  | _ => .error .typeError

def asStrE : PyVal → Except PyErr String
  | .str s => .ok s
  | _ => .error .typeError

def asIntE : PyVal → Except PyErr Int
  | .int n => .ok n
  | _ => .error .typeError

def asOptIntE : PyVal → Except PyErr (Option Int)
  | .pynone => .ok none
  | .int n => .ok (some n)
  | _ => .error .typeError

def contactoPy : PyVal :=
  .dict
    [("empresa", .str "Garrido Sportech"),
     ("web", .str "https://garridosportech.cl"),
     ("whatsapp", .dict
       [("numero", .str "+56 9 2171 1836"),
        ("link", .str "https://wa.me/56921711836?text=Hola,%20me%20interesa%20conocer%20más%20sobre%20Garrido%20Sportech")]),
     ("instagram", .dict
       [("usuario", .str "@garrido_sportech"),
        ("link", .str "https://www.instagram.com/garrido_sportech/")]),
     ("ubicacion", .str "Chile 🇨🇱")]

def publicacionesPy : PyVal :=
  .list
    [.dict
      [("titulo", .str "Reliability and Repeatability of the Low-Cost G-Force Load Cell System in Isometric Hip Abduction and Adduction Tests"),
       ("autores", .str "Garrido-Osorio V., Fuentes-Barria H., et al."),
       ("revista", .str "Applied Sciences (MDPI)"),
       ("año", .int 2025),
       ("hallazgo", .str "Peak Force mostró excelente confiabilidad (ICC = 0.94-0.96)"),
       ("link", .str "https://www.mdpi.com/2076-3417/15/21/11457")],
     .dict
      [("titulo", .str "Validation of the G-Force Platform for Isometric Tests in Physically Active Young Adults"),
       ("autores", .str "Garrido-Osorio V., Fuentes-Barria H., et al."),
       ("revista", .str "Applied Sciences (MDPI)"),
       ("año", .int 2025),
       ("hallazgo", .str "Herramienta válida, confiable y de bajo costo para evaluación de fuerza isométrica"),
       ("link", .str "https://www.mdpi.com/2076-3417/15/23/12409")]]

def descargasPy : PyVal :=
  .dict
    [("software_windows", .list
      [.dict [("nombre", .str "G-Force Pro v8 — Isometría"),
              ("link", .str "https://github.com/vgarrido1995/garridosportech/raw/main/software/GFORCE_Pro_v8.exe")],
       .dict [("nombre", .str "Force Plate Jump Pro — Saltos"),
              ("link", .str "https://github.com/vgarrido1995/garridosportech/raw/main/software/GARRIDO_JumpAnalyzer_Pro.exe")],
       .dict [("nombre", .str "G-Force v7 — Isometría"),
              ("link", .str "https://github.com/vgarrido1995/garridosportech/releases/download/v1.0/GFORCE_v7.3.exe")],
       .dict [("nombre", .str "G-Force JumpPlate v1 — Saltos"),
              ("link", .str "https://github.com/vgarrido1995/garridosportech/releases/download/v1.0/GFORCE_JumpPlate_v1.2.exe")],
       .dict [("nombre", .str "Garrido Jump v3 — Contacto"),
              ("link", .str "https://github.com/vgarrido1995/garridosportech/releases/download/v1.0/GarridoJump_v3.4.exe")]]),
     ("drivers", .list
      [.dict [("sistema", .str "Windows"),
              ("link", .str "https://github.com/vgarrido1995/garridosportech/releases/download/v1.0/CH34x_Install_Windows_v3_4.zip")],
       .dict [("sistema", .str "macOS"),
              ("link", .str "https://github.com/vgarrido1995/garridosportech/releases/download/v1.0/CH341SER_MAC_V1_8.zip")],
       .dict [("sistema", .str "Linux"),
              ("link", .str "https://github.com/vgarrido1995/garridosportech/releases/download/v1.0/CH340_LINUX.zip")]])]

/-- The nine registered tool names of tools.py, in dispatch order. -/
def registeredToolNames : List String :=
  ["buscar_sistemas", "ver_ficha_tecnica", "cotizar", "sistemas_complementarios",
   "comparar_sistemas", "obtener_contacto", "ver_publicaciones", "ver_descargas",
   "listar_catalogo"]

/-- `execute_tool` from tools.py: dispatch by exact name over the nine fixed
operations, serializing each result to a JSON string; an unrecognized name
returns the textual error payload instead of raising. -/
def execute_tool (name : String) (arguments : PyVal) : Except PyErr String :=
  if name == "buscar_sistemas" then
    match pyvGet arguments "query" (.str "") with
    | .error e => .error e
    | .ok qv =>
      match asStrE qv with
      | .error e => .error e
      | .ok query =>
        match pyvGet arguments "category" (.str "") with
        | .error e => .error e
        | .ok cv =>
          match asStrE cv with
          | .error e => .error e
          | .ok category =>
            match pyvGet arguments "max_price" .pynone with
            | .error e => .error e
            | .ok mv =>
              match asOptIntE mv with
              | .error e => .error e
              | .ok max_price =>
                let results := search_products query category max_price
                if results.isEmpty then
                  .ok (dumps (.dict [("message", .str "No se encontraron sistemas con esos criterios.")]))
                else
                  .ok (dumps2 (.dict
                    [("count", .int (results.length : Int)),
                     ("systems", .list (results.map _product_summary))]))
  else if name == "ver_ficha_tecnica" then
    match pyvSub arguments "product_id" with
    | .error e => .error e
    | .ok pidv =>
      match asStrE pidv with
      | .error e => .error e
      | .ok pid =>
        match get_product_by_id pid with
        | none => .ok (dumps (.dict [("error", .str ("Sistema \x27" ++ pid ++ "\x27 no encontrado."))]))
        | some p => .ok (dumps2 (_product_summary p))
  else if name == "cotizar" then
    match pyvSub arguments "product_id" with
    | .error e => .error e
    | .ok pidv =>
      match asStrE pidv with
      | .error e => .error e
      | .ok pid =>
        match pyvSub arguments "quantity" with
        | .error e => .error e
        | .ok qv =>
          match asIntE qv with
          | .error e => .error e
          | .ok quantity => .ok (dumps2 (quoteToPy (calculate_quote pid quantity)))
  else if name == "sistemas_complementarios" then
    match pyvSub arguments "product_id" with
    | .error e => .error e
    | .ok pidv =>
      match asStrE pidv with
      | .error e => .error e
      | .ok pid =>
        let compatibles := get_compatible_products pid
        if compatibles.isEmpty then
          .ok (dumps (.dict [("message", .str "No se encontraron sistemas complementarios.")]))
        else
          .ok (dumps2 (.dict
            [("complementary_systems", .list (compatibles.map _product_summary))]))
  else if name == "comparar_sistemas" then
    match pyvSub arguments "product_ids" with
    | .error e => .error e
    | .ok idsv =>
      match pyIter idsv with
      | .error e => .error e
      | .ok idvals =>
        match idvals.mapM asStrE with
        | .error e => .error e
        | .ok ids =>
          let products := ids.map get_product_by_id
          let found := products.filterMap id
          let missing := (ids.zip products).filterMap
            (fun ip => match ip.snd with | none => some ip.fst | some _ => none)
          let base := [("systems_compared", PyVal.list (found.map _product_summary))]
          let comparison :=
            if missing.isEmpty then base
            else base ++ [("not_found", PyVal.list (missing.map PyVal.str))]
          .ok (dumps2 (.dict comparison))
  else if name == "obtener_contacto" then
    .ok (dumps2 contactoPy)
  else if name == "ver_publicaciones" then
    .ok (dumps2 (.dict [("publicaciones", publicacionesPy)]))
  else if name == "ver_descargas" then
    .ok (dumps2 descargasPy)
  else if name == "listar_catalogo" then
    .ok (dumps2 (.dict [("catalog", .list (get_all_products.map _product_brief))]))
  else
    .ok (dumps (.dict [("error", .str ("Herramienta \x27" ++ name ++ "\x27 no reconocida."))]))

/-! ## config.py defaults -/

def MAX_TOOL_ROUNDS : Nat := 10

def SYSTEM_PROMPT : String :=
  "Eres el asistente técnico oficial de Garrido Sportech (fabricación chilena 🇨🇱).\n\n" ++
  "Tu función es informar con rigor técnico y lenguaje claro sobre los sistemas de medición disponibles, sus especificaciones, precios, alcances y limitaciones reales.\n\n" ++
  "No eres un vendedor agresivo.\nNo prometes resultados.\nNo exageras capacidades.\n" ++
  "Si existen límites técnicos o dependencias del protocolo, las declaras con claridad.\n" ++
  "Si falta información para responder, lo dices y solicitas solo el dato mínimo necesario.\n\n" ++
  "Tono:\n- Profesional, sobrio y directo.\n- Cercano, sin marketing exagerado.\n- Prioriza credibilidad técnica.\n\n" ++
  "Qué sí haces:\n- Explicas qué mide cada sistema y para qué pruebas sirve.\n" ++
  "- Aclaras frecuencia de análisis, interpolación y métricas disponibles.\n" ++
  "- Das precios claros + IVA.\n- Indicas soporte, software y envíos.\n" ++
  "- Usas las herramientas disponibles para consultar el catálogo antes de responder.\n\n" ++
  "Qué NO haces:\n- No das consejos de entrenamiento.\n- No haces diagnósticos.\n" ++
  "- No inventas validaciones inexistentes.\n- No inventas métricas no declaradas.\n\n" ++
  "Formato de respuesta:\n1) Respuesta directa y breve.\n2) Especificaciones clave.\n" ++
  "3) Alcances y limitaciones relevantes.\n4) Precio + IVA.\n" ++
  "5) Cierre opcional solo si corresponde:\n   - Cotización formal si el usuario la solicita.\n" ++
  "   - Sugerencia de sistema solo si el usuario explica su caso de uso.\n\n" ++
  "Qué más puedes ofrecer:\n- Links a publicaciones científicas indexadas que respaldan los sistemas.\n" ++
  "- Links de descarga de software (Windows) y drivers (Windows, macOS, Linux).\n" ++
  "- Contacto directo: WhatsApp +56 9 2171 1836, Instagram @garrido_sportech.\n" ++
  "- Web oficial: garridosportech.cl\n\n" ++
  "Cuando el usuario pida contacto, cotización formal o comunicarse, proporciona el link de WhatsApp.\n" ++
  "Cuando pregunte por validación científica, menciona las publicaciones.\n" ++
  "Cuando necesite software o drivers, usa la herramienta correspondiente.\n\n" ++
  "No hagas preguntas innecesarias.\nSolicita solo el mínimo dato faltante.\n" ++
  "Responde siempre en español y alineado con Garrido Sportech.\n" ++
  "Todos los precios son en CLP (pesos chilenos) + IVA.\n"

/-! ## agent.py : the agent loop

The LLM service is modelled as a script: `script i` is the service reply to
the `i`-th (0-based) non-streaming completion call of the turn, carrying the
assistant content and the requested tool calls; a streaming completion call
is a scripted list of text fragments. -/

structure ToolCallFunction where
  name : String
  arguments : String
  deriving Repr, DecidableEq

structure ToolCall where
  id : String
  type : String
  function : ToolCallFunction
  deriving Repr, DecidableEq

structure SvcMessage where
  content : Option String
  tool_calls : List ToolCall
  deriving Repr, DecidableEq

/-- The sanitized conversation messages held in `self.messages`.  An
assistant message with `tool_calls = []` models the dict without the
`tool_calls` key (the sanitizer omits it when empty). -/
inductive Msg where
  | system (content : String)
  | user (content : String)
  | assistant (content : String) (tool_calls : List ToolCall)
  | tool (tool_call_id : String) (content : String)
  deriving Repr, DecidableEq

structure AgentState where
  messages : List Msg
  tool_log : List (String × PyVal)
  deriving Repr

def initialAgentState : AgentState :=
  { messages := [.system SYSTEM_PROMPT], tool_log := [] }

/-- `message.content or ""`. -/
def contentOrEmpty (m : SvcMessage) : String :=
  (m.content.getD "")

/-- The assistant message appended by `_sanitize_message(message.model_dump())`
in the tool-call branch of the loop. -/
def sanitizedAssistant (m : SvcMessage) : Msg :=
  .assistant (contentOrEmpty m) m.tool_calls

/-- Executing one batch of tool calls, in order: parse the arguments with
`json.loads` (an unparsable string raises, keeping the state accumulated so
far), log the invocation, execute the tool, append the Tool Result message. -/
def processToolCalls : List ToolCall → AgentState → AgentState × Option PyErr
  | [], st => (st, none)
  | tc :: rest, st =>
    match jsonLoads tc.function.arguments with
    | none => (st, some .jsonError)
    | some args =>
      let st1 : AgentState := { st with tool_log := st.tool_log ++ [(tc.function.name, args)] }
      match execute_tool tc.function.name args with
      | .error e => (st1, some e)
      | .ok result =>
        processToolCalls rest
          { st1 with messages := st1.messages ++ [.tool tc.id result] }

inductive TurnOutcome where
  | final (content : String)
  | exhausted
  | error (e : PyErr)
  deriving Repr, DecidableEq

/-- `_run_agent_loop`: `idx` is the number of service calls already made this
turn, `fuel` the remaining rounds; the result carries the outcome, the final
conversation state and the total number of service calls made. -/
def runLoopAux (script : Nat → SvcMessage) : Nat → Nat → AgentState → TurnOutcome × AgentState × Nat
  | idx, 0, st => (.exhausted, st, idx)
  | idx, fuel + 1, st =>
    let m := script idx
    if m.tool_calls.isEmpty then
      let content := contentOrEmpty m
      (.final content, { st with messages := st.messages ++ [.assistant content []] }, idx + 1)
    else
      let st1 : AgentState := { st with messages := st.messages ++ [sanitizedAssistant m] }
      match processToolCalls m.tool_calls st1 with
      | (st2, some e) => (.error e, st2, idx + 1)
      | (st2, none) => runLoopAux script (idx + 1) fuel st2

/-- The fixed fallback returned when the round budget is exhausted. -/
def fallbackAnswer : String :=
  "⚠️ Se alcanzó el límite de iteraciones. Por favor, reformula tu pregunta."

/-- What `_run_agent_loop` returns to the caller (an uncaught exception is
modelled as `Except.error`). -/
def chatResult : TurnOutcome → Except PyErr String
  | .final s => .ok s
  | .exhausted => .ok fallbackAnswer
  | .error e => .error e

/-- `chat`: append the user message and run the loop. -/
def chat (script : Nat → SvcMessage) (user_message : String) (st : AgentState) :
    Except PyErr String × AgentState × Nat :=
  let r := runLoopAux script 0 MAX_TOOL_ROUNDS
    { st with messages := st.messages ++ [.user user_message] }
  (chatResult r.1, r.2.1, r.2.2)

/-- The notice fragment yielded per tool invocation in the streaming path. -/
def toolNotice (fnName : String) (args : PyVal) : String :=
  "\n🔧 Usando: " ++ fnName ++ "(" ++ dumps args ++ ")\n"

/-- The warning yielded when the streaming loop exhausts its rounds. -/
def streamExhaustedNotice : String :=
  "\n⚠️ Se alcanzó el límite de iteraciones."

/-- Concatenation of string fragments (Python `"".join`). -/
def strJoin : List String → String
  | [] => ""
  | s :: rest => s ++ strJoin rest

/-- The streaming variant of the batch processor, also collecting the yielded
notice fragments (the notice is emitted after logging and before executing). -/
def processToolCallsStream : List ToolCall → AgentState → AgentState × List String × Option PyErr
  | [], st => (st, [], none)
  | tc :: rest, st =>
    match jsonLoads tc.function.arguments with
    | none => (st, [], some .jsonError)
    | some args =>
      let st1 : AgentState := { st with tool_log := st.tool_log ++ [(tc.function.name, args)] }
      let notice := toolNotice tc.function.name args
      match execute_tool tc.function.name args with
      | .error e => (st1, [notice], some e)
      | .ok result =>
        let r := processToolCallsStream rest
          { st1 with messages := st1.messages ++ [.tool tc.id result] }
        (r.1, notice :: r.2.1, r.2.2)

/-- `_run_agent_loop_stream`: `frags` scripts the chunks of the streaming
completion call issued for the final answer (`delta.content` values; empty
fragments are skipped by the `if delta.content:` guard).  The result carries
the outcome, the final state, the yielded fragments and the number of service
calls (the final round issues a probe call plus a streaming call). -/
def runLoopStreamAux (script : Nat → SvcMessage) (frags : List String) :
    Nat → Nat → AgentState → TurnOutcome × AgentState × List String × Nat
  | idx, 0, st => (.exhausted, st, [streamExhaustedNotice], idx)
  | idx, fuel + 1, st =>
    let m := script idx
    if m.tool_calls.isEmpty then
      let kept := frags.filter (fun s => s ≠ "")
      let final := strJoin kept
      (.final final, { st with messages := st.messages ++ [.assistant final []] }, kept, idx + 2)
    else
      let st1 : AgentState := { st with messages := st.messages ++ [sanitizedAssistant m] }
      match processToolCallsStream m.tool_calls st1 with
      | (st2, ys, some e) => (.error e, st2, ys, idx + 1)
      | (st2, ys, none) =>
        let r := runLoopStreamAux script frags (idx + 1) fuel st2
        (r.1, r.2.1, ys ++ r.2.2.1, r.2.2.2)

/-- `chat_stream`: append the user message and run the streaming loop. -/
def chat_stream (script : Nat → SvcMessage) (frags : List String)
    (user_message : String) (st : AgentState) :
    TurnOutcome × AgentState × List String × Nat :=
  runLoopStreamAux script frags 0 MAX_TOOL_ROUNDS
    { st with messages := st.messages ++ [.user user_message] }

/-! ## History well-formedness (claim C3) -/

/-- `pendingOK pending msgs`: the history is well formed when every assistant
message carrying tool calls is immediately followed by one tool-result
message per call, in order, with matching ids, and no other tool message
occurs.  `pending` holds the requests of the most recent assistant message
still awaiting their results. -/
def pendingOK : List ToolCall → List Msg → Bool
  | [], [] => true
  | _ :: _, [] => false
  | [], .system _ :: rest => pendingOK [] rest
  | [], .user _ :: rest => pendingOK [] rest
  | [], .assistant _ tcs :: rest => pendingOK tcs rest
  | [], .tool _ _ :: _ => false
  | tc :: tcs, .tool tid _ :: rest => tc.id == tid && pendingOK tcs rest
  | _ :: _, _ :: _ => false

def historyOK (msgs : List Msg) : Bool :=
  pendingOK [] msgs

/-! ## Round iteration (claims C1 and C8) -/

/-- The state transformation of one Awaiting-Model → Executing-Tools round:
append the sanitized assistant message, then run the batch (keeping whatever
state the batch reached, even on error). -/
def roundAppend (m : SvcMessage) (st : AgentState) : AgentState :=
  (processToolCalls m.tool_calls
    { st with messages := st.messages ++ [sanitizedAssistant m] }).1

/-- `iterateRounds script idx fuel st`: the state after `fuel` successive
tool rounds driven by `script` starting at call index `idx`. -/
def iterateRounds (script : Nat → SvcMessage) : Nat → Nat → AgentState → AgentState
  | _, 0, st => st
  | idx, fuel + 1, st => iterateRounds script (idx + 1) fuel (roundAppend (script idx) st)

/-- A tool call whose arguments parse and whose execution returns a payload. -/
def toolCallOk (tc : ToolCall) : Bool :=
  match jsonLoads tc.function.arguments with
  | none => false
  | some args =>
    match execute_tool tc.function.name args with
    | .ok _ => true
    | .error _ => false

def batchOk (tcs : List ToolCall) : Bool :=
  tcs.all toolCallOk

/-! ## Concrete service scripts and messages used in the theorems -/

/-- A tool call with a name outside the registry and well-formed arguments. -/
def tcUnknown : ToolCall :=
  { id := "call_u", type := "function",
    function := { name := "herramienta_x", arguments := "\x7b\x7d" } }

/-- A tool call whose argument string is not valid JSON. -/
def tcBadArgs : ToolCall :=
  { id := "call_b", type := "function",
    function := { name := "cotizar", arguments := "not json" } }

/-- A service that requests one (well-formed) tool call on every round. -/
def allToolRoundsScript : Nat → SvcMessage :=
  fun _ => { content := none, tool_calls := [tcUnknown] }

/-- A service whose first response carries a tool call with unparsable
arguments. -/
def badArgsScript : Nat → SvcMessage :=
  fun _ => { content := none, tool_calls := [tcBadArgs] }

/-- A service whose first response carries a good tool call followed by one
with unparsable arguments (the mid-batch JSON failure). -/
def midBatchBadScript : Nat → SvcMessage :=
  fun _ => { content := none, tool_calls := [tcUnknown, tcBadArgs] }

/-- A service that replies with a final answer (no tool calls) on every
call. -/
def finalAnswerScript (c : String) : Nat → SvcMessage :=
  fun _ => { content := some c, tool_calls := [] }

/-- The raw `model_dump` of an assistant reply with transport extras. -/
def sampleModelDump : List (String × PyVal) :=
  [("role", .str "assistant"), ("content", .pynone), ("refusal", .pynone),
   ("tool_calls", .list
     [.dict [("id", .str "call_1"), ("type", .str "function"),
             ("function", .dict [("name", .str "cotizar"),
                                 ("arguments", .str "\x7b\x22product_id\x22: \x22GF-ALPHA\x22\x7d")]),
             ("index", .int 0)]])]

/-- The sanitized form of `sampleModelDump`. -/
def sampleSanitized : List (String × PyVal) :=
  [("role", .str "assistant"), ("content", .str ""),
   ("tool_calls", .list
     [.dict [("id", .str "call_1"), ("type", .str "function"),
             ("function", .dict [("name", .str "cotizar"),
                                 ("arguments", .str "\x7b\x22product_id\x22: \x22GF-ALPHA\x22\x7d")])]])]

/-! ## Specification-side characterizations -/

/-- The price filter in positive (spec) form: absent filter is a no-op. -/
def specPriceOk (max_price : Option Int) (price : Int) : Bool :=
  match max_price with
  | some m => decide (price ≤ m)
  | none => true

/-- The search-match predicate characterizing `search_products`: the category
and price filters are conjunctive and no-ops when absent, and the (lowercased)
query must occur in the product's searchable text as built by the code (all
components lowercased except the tags, which are matched as written). -/
def searchSpecMatch (q c : String) (mp : Option Int) (p : Product) : Bool :=
  (c == "" || pyLower p.category == pyLower c) &&
  specPriceOk mp p.price &&
  (pyLower q == "" || pyIn (pyLower q) (searchableText p))

/-!
# Theorems
-/

/-! ## Case-insensitive product lookup (claim C10) -/

theorem pyCharUpper_idem (c : Char) : pyCharUpper (pyCharUpper c) = pyCharUpper c := by
  unfold pyCharUpper
  by_cases h : 97 ≤ c.toNat ∧ c.toNat ≤ 122
  · rw [if_pos h]
    have hv : (c.toNat - 32).isValidChar := by
      left
      omega
    have ht : (Char.ofNat (c.toNat - 32)).toNat = c.toNat - 32 := by
      unfold Char.ofNat
      rw [dif_pos hv]
      rfl
    rw [if_neg]
    rw [ht]
    omega
  · rw [if_neg h, if_neg h]

theorem pyUpper_idem (s : String) : pyUpper (pyUpper s) = pyUpper s := by
  unfold pyUpper
  have h1 : (String.mk (s.toList.map pyCharUpper)).toList = s.toList.map pyCharUpper := rfl
  rw [h1, List.map_map]
  have h2 : pyCharUpper ∘ pyCharUpper = pyCharUpper := funext pyCharUpper_idem
  rw [h2]

/-- C10: product-id lookup is case-insensitive: `get_product_by_id s` agrees
with `get_product_by_id` on the upper-cased form of `s`, so quotes and
complementary-product resolution accept lower- or mixed-case ids, and the
lower-case id "gf-alpha" resolves to the GF-ALPHA product. -/
theorem C10_lookup_case_insensitive :
    (∀ s : String, get_product_by_id s = get_product_by_id (pyUpper s)) ∧
    (∀ s : String, get_compatible_products s = get_compatible_products (pyUpper s)) ∧
    (∀ (s : String) (qty : Int) (p : Product),
      get_product_by_id s = some p → calculate_quote s qty = calculate_quote (pyUpper s) qty) ∧
    get_product_by_id "gf-alpha" = some productAlpha := by
  have hbase : ∀ s : String, get_product_by_id s = get_product_by_id (pyUpper s) := by
    intro s
    unfold get_product_by_id get_product_by_id_in
    rw [pyUpper_idem]
  refine ⟨hbase, ?_, ?_, ?_⟩
  · intro s
    unfold get_compatible_products get_compatible_products_in
    rw [show get_product_by_id_in CATALOG s = get_product_by_id_in CATALOG (pyUpper s) from hbase s]
  · intro s qty p h
    have h2 : get_product_by_id (pyUpper s) = some p := by
      rw [← hbase s]
      exact h
    unfold calculate_quote
    rw [h, h2]
  · rfl

/-- Witness for C10 at the lower-case id "gf-alpha". -/
theorem C10_lookup_case_insensitive_witness :
    calculate_quote "gf-alpha" 2 = calculate_quote "GF-ALPHA" 2 :=
  C10_lookup_case_insensitive.2.2.1 "gf-alpha" 2 productAlpha (by decide)

/-! ## Quote arithmetic (claim C4) -/

theorem lookup_mem (s : String) (p : Product) (h : get_product_by_id s = some p) :
    p = productAlpha ∨ p = productCell ∨ p = productJump := by
  unfold get_product_by_id get_product_by_id_in byIdIndex CATALOG assocGet at h
  simp only [List.map_cons, List.map_nil] at h
  unfold assocGet at h
  split at h
  · exact Or.inl (Option.some.inj h).symm
  · unfold assocGet at h
    split at h
    · exact Or.inr (Or.inl (Option.some.inj h).symm)
    · unfold assocGet at h
      split at h
      · exact Or.inr (Or.inr (Option.some.inj h).symm)
      · exact absurd h (by simp [assocGet])

theorem pyRound_intCast (n : ℤ) : pyRound ((n : ℤ) : ℚ) = n := by
  unfold pyRound
  norm_num

/-! ## Double-precision rounding lemmas (claim C4) -/

theorem pyRound_abs_err (x : ℚ) : |((pyRound x : ℤ) : ℚ) - x| ≤ 1 / 2 := by
  unfold pyRound
  have hf : (⌊x⌋ : ℚ) ≤ x := Int.floor_le x
  have hf1 : x < ⌊x⌋ + 1 := Int.lt_floor_add_one x
  by_cases h1 : x - ⌊x⌋ < 1 / 2
  · rw [if_pos h1]
    rw [abs_le]
    constructor <;> linarith
  · rw [if_neg h1]
    by_cases h2 : x - ⌊x⌋ > 1 / 2
    · rw [if_pos h2]
      push_cast
      rw [abs_le]
      constructor <;> linarith
    · have heq : x - ⌊x⌋ = 1 / 2 := by linarith
      rw [if_neg h2]
      by_cases h3 : ⌊x⌋ % 2 = 0
      · rw [if_pos h3]
        rw [abs_le]
        constructor <;> linarith
      · rw [if_neg h3]
        push_cast
        rw [abs_le]
        constructor <;> linarith

theorem pyRound_eq_of_abs_lt (K : ℤ) (z : ℚ) (h : |z - (K : ℚ)| < 1 / 2) :
    pyRound z = K := by
  rw [abs_lt] at h
  obtain ⟨hlo, hhi⟩ := h
  unfold pyRound
  by_cases hz : (K : ℚ) ≤ z
  · have hfl : ⌊z⌋ = K := by
      rw [Int.floor_eq_iff]
      constructor
      · exact hz
      · push_cast
        linarith
    rw [hfl, if_pos (by linarith)]
  · have hfl : ⌊z⌋ = K - 1 := by
      rw [Int.floor_eq_iff]
      push_cast
      constructor <;> linarith
    rw [hfl]
    rw [if_neg (by push_cast; linarith)]
    rw [if_pos (by push_cast; linarith)]
    omega

theorem scaleTo_val : ∀ (fuel : Nat) (q : ℚ) (e : ℤ),
    (scaleTo fuel q e).1 * (2 : ℚ) ^ (scaleTo fuel q e).2 = q * (2 : ℚ) ^ e := by
  intro fuel
  induction fuel with
  | zero =>
    intro q e
    rfl
  | succ fuel ih =>
    intro q e
    simp only [scaleTo]
    by_cases h1 : q < 4503599627370496
    · rw [if_pos h1, ih]
      rw [zpow_sub_one₀ (by norm_num : (2:ℚ) ≠ 0)]
      ring
    · rw [if_neg h1]
      by_cases h2 : (9007199254740992 : ℚ) ≤ q
      · rw [if_pos h2, ih]
        rw [zpow_add_one₀ (by norm_num : (2:ℚ) ≠ 0)]
        ring
      · rw [if_neg h2]

theorem scaleTo_range : ∀ (fuel : Nat) (q : ℚ) (e : ℤ),
    (2 : ℚ) ^ ((52 : ℤ) - fuel) ≤ q → q < (2 : ℚ) ^ ((53 : ℤ) + fuel) →
    (4503599627370496 : ℚ) ≤ (scaleTo fuel q e).1 ∧
      (scaleTo fuel q e).1 < 9007199254740992 := by
  intro fuel
  induction fuel with
  | zero =>
    intro q e hlo hhi
    simp only [Nat.cast_zero, sub_zero, add_zero] at hlo hhi
    norm_num at hlo hhi
    exact ⟨hlo, hhi⟩
  | succ fuel ih =>
    intro q e hlo hhi
    have h52 : (2:ℚ) ^ (52:ℤ) = 4503599627370496 := by norm_num
    have h53 : (2:ℚ) ^ (53:ℤ) = 9007199254740992 := by norm_num
    simp only [scaleTo]
    by_cases h1 : q < 4503599627370496
    · rw [if_pos h1]
      refine ih (2 * q) (e - 1) ?_ ?_
      · have hexp : (52 : ℤ) - (fuel : ℤ) = ((52 : ℤ) - ((fuel : ℕ) + 1 : ℕ)) + 1 := by
          push_cast
          ring
        rw [show ((52 : ℤ) - (fuel : ℤ)) = ((52 : ℤ) - ((fuel : ℕ) + 1 : ℕ)) + 1 from hexp,
          zpow_add_one₀ (by norm_num : (2:ℚ) ≠ 0)]
        nlinarith [hlo]
      · have hmono : (2:ℚ) ^ (53:ℤ) ≤ 2 ^ ((53:ℤ) + (fuel : ℤ)) := by
          apply zpow_le_zpow_right₀ (by norm_num)
          omega
        push_cast
        nlinarith [h1, hmono, h53]
    · rw [if_neg h1]
      by_cases h2 : (9007199254740992 : ℚ) ≤ q
      · rw [if_pos h2]
        refine ih (q / 2) (e + 1) ?_ ?_
        · have hmono : (2:ℚ) ^ ((52:ℤ) - (fuel : ℤ)) ≤ 2 ^ (52:ℤ) := by
            apply zpow_le_zpow_right₀ (by norm_num)
            omega
          push_cast
          nlinarith [hmono, h52, h2]
        · have hexp : (53 : ℤ) + ((fuel : ℕ) + 1 : ℕ) = ((53 : ℤ) + (fuel : ℤ)) + 1 := by
            push_cast
            ring
          rw [hexp, zpow_add_one₀ (by norm_num : (2:ℚ) ≠ 0)] at hhi
          push_cast
          nlinarith [hhi]
      · rw [if_neg h2]
        push_neg at h1 h2
        exact ⟨h1, h2⟩

theorem scaleTo_int : ∀ (fuel : Nat) (q : ℚ) (e : ℤ),
    (∃ k : ℤ, q = (k : ℚ)) → q < 9007199254740992 →
    ∃ k : ℤ, (scaleTo fuel q e).1 = (k : ℚ) := by
  intro fuel
  induction fuel with
  | zero =>
    intro q e hk _
    exact hk
  | succ fuel ih =>
    intro q e hk hlt
    simp only [scaleTo]
    by_cases h1 : q < 4503599627370496
    · rw [if_pos h1]
      refine ih (2 * q) (e - 1) ?_ (by linarith)
      obtain ⟨k, rfl⟩ := hk
      exact ⟨2 * k, by push_cast; ring⟩
    · rw [if_neg h1]
      rw [if_neg (by linarith)]
      exact hk

theorem flRoundPos_int (n : ℤ) (h1 : 0 < n) (h2 : (n : ℚ) ≤ 4503599627370496) :
    flRoundPos ((n : ℤ) : ℚ) = ((n : ℤ) : ℚ) := by
  obtain ⟨k, hk⟩ := scaleTo_int 4200 ((n : ℤ) : ℚ) 0 ⟨n, rfl⟩ (by push_cast; linarith)
  have hval := scaleTo_val 4200 ((n : ℤ) : ℚ) 0
  unfold flRoundPos
  rw [hk, pyRound_intCast, ← hk]
  rw [hval]
  norm_num

theorem flRoundPos_err (q : ℚ) (h0 : 0 < q)
    (hlo : (2 : ℚ) ^ ((52 : ℤ) - (4200 : ℕ)) ≤ q)
    (hhi : q < (2 : ℚ) ^ ((53 : ℤ) + (4200 : ℕ))) :
    |flRoundPos q - q| ≤ q * (1 / 9007199254740992) := by
  have hval := scaleTo_val 4200 q 0
  have hrange := scaleTo_range 4200 q 0 hlo hhi
  obtain ⟨hx1, hx2⟩ := hrange
  set x := (scaleTo 4200 q 0).1 with hxdef
  set e := (scaleTo 4200 q 0).2 with hedef
  have hq : x * (2 : ℚ) ^ e = q := by
    rw [hval]
    norm_num
  have hepos : (0 : ℚ) < (2 : ℚ) ^ e := zpow_pos (by norm_num) e
  have herr := pyRound_abs_err x
  unfold flRoundPos
  rw [← hxdef, ← hedef]
  have hsplit : ((pyRound x : ℤ) : ℚ) * (2 : ℚ) ^ e - q =
      (((pyRound x : ℤ) : ℚ) - x) * (2 : ℚ) ^ e := by
    rw [← hq]
    ring
  rw [hsplit, abs_mul, abs_of_pos hepos]
  have h2e : (2 : ℚ) ^ e ≤ q / 4503599627370496 := by
    rw [le_div_iff₀ (by norm_num : (0:ℚ) < 4503599627370496)]
    calc (2 : ℚ) ^ e * 4503599627370496 = 4503599627370496 * (2 : ℚ) ^ e := by ring
      _ ≤ x * (2 : ℚ) ^ e := by
          apply mul_le_mul_of_nonneg_right hx1 (le_of_lt hepos)
      _ = q := hq
  calc |((pyRound x : ℤ) : ℚ) - x| * (2 : ℚ) ^ e
      ≤ (1 / 2) * (q / 4503599627370496) := by
        apply mul_le_mul herr h2e (le_of_lt hepos) (by norm_num)
    _ = q * (1 / 9007199254740992) := by ring

theorem flRound_intCast (n : ℤ) (h : |((n : ℤ) : ℚ)| ≤ 4503599627370496) :
    flRound ((n : ℤ) : ℚ) = ((n : ℤ) : ℚ) := by
  rcases lt_trichotomy n 0 with hn | hn | hn
  · have hne : ((n : ℤ) : ℚ) ≠ 0 := by
      simp only [ne_eq, Int.cast_eq_zero]
      omega
    have hlt : ((n : ℤ) : ℚ) < 0 := by
      exact_mod_cast hn
    unfold flRound
    rw [if_neg hne, if_pos hlt]
    have hcast : -((n : ℤ) : ℚ) = (((-n) : ℤ) : ℚ) := by push_cast; ring
    rw [hcast, flRoundPos_int (-n) (by omega) ?hb]
    · push_cast
      ring
    case hb =>
      rw [abs_of_neg hlt] at h
      push_cast at h ⊢
      linarith
  · subst hn
    simp [flRound]
  · have hne : ((n : ℤ) : ℚ) ≠ 0 := by
      simp only [ne_eq, Int.cast_eq_zero]
      omega
    have hpos : (0 : ℚ) < ((n : ℤ) : ℚ) := by
      exact_mod_cast hn
    unfold flRound
    rw [if_neg hne, if_neg (by linarith)]
    apply flRoundPos_int n hn
    rw [abs_of_pos hpos] at h
    exact h

theorem pow_low_le_eighth : (2 : ℚ) ^ ((52 : ℤ) - (4200 : ℕ)) ≤ 1 / 8 := by
  have he : (52 : ℤ) - ((4200 : ℕ) : ℤ) = -4148 := by norm_num
  rw [he]
  have h3 : (2 : ℚ) ^ (-3 : ℤ) = 1 / 8 := by norm_num
  rw [← h3]
  apply zpow_le_zpow_right₀ (by norm_num)
  norm_num

theorem pow_high_gt : (9007199254740992 : ℚ) < (2 : ℚ) ^ ((53 : ℤ) + (4200 : ℕ)) := by
  have h53 : (9007199254740992 : ℚ) = (2 : ℚ) ^ (53 : ℤ) := by norm_num
  rw [h53]
  apply zpow_lt_zpow_right₀ (by norm_num)
  norm_num

theorem pow_2_90_lt : (2 : ℚ) ^ (90 : ℤ) < (2 : ℚ) ^ ((53 : ℤ) + (4200 : ℕ)) := by
  apply zpow_lt_zpow_right₀ (by norm_num)
  norm_num

theorem flRound_err (q : ℚ) (h1 : 1 / 8 ≤ |q|) (h2 : |q| ≤ 9007199254740992) :
    |flRound q - q| ≤ |q| * (1 / 9007199254740992) := by
  have hne : q ≠ 0 := by
    intro h
    rw [h] at h1
    norm_num at h1
  rcases lt_or_gt_of_ne hne with hlt | hgt
  · unfold flRound
    rw [if_neg hne, if_pos hlt]
    rw [abs_of_neg hlt] at h1 h2
    have hp := flRoundPos_err (-q) (by linarith)
      (le_trans pow_low_le_eighth h1) (lt_of_le_of_lt h2 pow_high_gt)
    have hrw : |-flRoundPos (-q) - q| = |flRoundPos (-q) - -q| := by
      rw [show -flRoundPos (-q) - q = -(flRoundPos (-q) - -q) from by ring, abs_neg]
    rw [hrw, abs_of_neg hlt]
    linarith
  · unfold flRound
    rw [if_neg hne, if_neg (by linarith)]
    rw [abs_of_pos hgt] at h1 h2
    have hp := flRoundPos_err q hgt
      (le_trans pow_low_le_eighth h1) (lt_of_le_of_lt h2 pow_high_gt)
    rw [abs_of_pos hgt]
    linarith

theorem flRoundPos_formula (q : ℚ) (e : ℤ)
    (h1 : 4503599627370496 * (2 : ℚ) ^ e ≤ q)
    (h2 : q < 9007199254740992 * (2 : ℚ) ^ e)
    (hlo : (2 : ℚ) ^ ((52 : ℤ) - (4200 : ℕ)) ≤ q)
    (hhi : q < (2 : ℚ) ^ ((53 : ℤ) + (4200 : ℕ))) :
    flRoundPos q = ((pyRound (q / (2 : ℚ) ^ e) : ℤ) : ℚ) * (2 : ℚ) ^ e := by
  have hval := scaleTo_val 4200 q 0
  obtain ⟨hx1, hx2⟩ := scaleTo_range 4200 q 0 hlo hhi
  set x := (scaleTo 4200 q 0).1 with hxdef
  set e2 := (scaleTo 4200 q 0).2 with hedef
  have hq : x * (2 : ℚ) ^ e2 = q := by
    rw [hval]
    norm_num
  have hepos : (0 : ℚ) < (2 : ℚ) ^ e := zpow_pos (by norm_num) e
  have hepos2 : (0 : ℚ) < (2 : ℚ) ^ e2 := zpow_pos (by norm_num) e2
  have hee : e2 = e := by
    by_contra hne
    rcases lt_or_gt_of_ne hne with hlt | hgt
    · have hle : (2 : ℚ) ^ e2 ≤ (2 : ℚ) ^ (e - 1) :=
        zpow_le_zpow_right₀ (by norm_num) (by omega)
      have hhalf : (2 : ℚ) ^ (e - 1) = (2 : ℚ) ^ e / 2 := by
        rw [zpow_sub_one₀ (by norm_num : (2:ℚ) ≠ 0)]
        ring
      rw [hhalf] at hle
      nlinarith [hq, hx1, hx2, h1, hepos2, hle]
    · have hle : (2 : ℚ) ^ (e + 1) ≤ (2 : ℚ) ^ e2 :=
        zpow_le_zpow_right₀ (by norm_num) (by omega)
      have hdouble : (2 : ℚ) ^ (e + 1) = (2 : ℚ) ^ e * 2 := by
        rw [zpow_add_one₀ (by norm_num : (2:ℚ) ≠ 0)]
      rw [hdouble] at hle
      nlinarith [hq, hx1, hx2, h2, hepos, hle]
  have hx : x = q / (2 : ℚ) ^ e2 := by
    rw [eq_div_iff (ne_of_gt hepos2)]
    exact hq
  unfold flRoundPos
  rw [← hxdef, ← hedef, hx, hee]

/-- In the regime where the subtotal fits in 52 bits, the double-precision
tax computation returns the exact 19% of the subtotal (an integer for every
catalog price). -/
theorem tax_float_regime (P Ku : ℤ) (hP : 0 < P)
    (hK : (P : ℚ) * (19 / 100) = (Ku : ℚ)) :
    ∀ qty : ℤ, |((P * qty : ℤ) : ℚ)| ≤ 4503599627370496 →
      pyRound (flRound (flRound ((P * qty : ℤ) : ℚ) * c19)) = Ku * qty := by
  intro qty hb
  by_cases hq0 : qty = 0
  · subst hq0
    simp only [mul_zero, Int.cast_zero]
    rw [show flRound (0 : ℚ) = 0 from by simp [flRound]]
    rw [zero_mul]
    rw [show flRound (0 : ℚ) = 0 from by simp [flRound]]
    rw [show (0 : ℚ) = ((0 : ℤ) : ℚ) from by norm_num, pyRound_intCast]
  · set S : ℚ := ((P * qty : ℤ) : ℚ) with hSdef
    have hSne : P * qty ≠ 0 := mul_ne_zero (by omega) hq0
    have hS1 : 1 ≤ |S| := by
      have ha : (1 : ℤ) ≤ |P * qty| := Int.one_le_abs hSne
      have hb2 : ((|P * qty| : ℤ) : ℚ) = |S| := by
        rw [hSdef, Int.cast_abs]
      calc (1 : ℚ) = ((1 : ℤ) : ℚ) := by norm_num
        _ ≤ ((|P * qty| : ℤ) : ℚ) := by exact_mod_cast ha
        _ = |S| := hb2
    have hfl1 : flRound S = S := flRound_intCast (P * qty) hb
    rw [hfl1]
    have hc19pos : (0 : ℚ) < c19 := by norm_num [c19]
    have hc19lo : (1 : ℚ) / 8 ≤ c19 := by norm_num [c19]
    have hc19hi : c19 ≤ 1 := by norm_num [c19]
    have hyabs : |S * c19| = |S| * c19 := by
      rw [abs_mul, abs_of_pos hc19pos]
    have hy1 : 1 / 8 ≤ |S * c19| := by
      rw [hyabs]
      nlinarith [hS1, hc19lo]
    have hy2 : |S * c19| ≤ 9007199254740992 := by
      rw [hyabs]
      nlinarith [hb, hc19hi, hc19pos, hS1, abs_nonneg S]
    have herr := flRound_err (S * c19) hy1 hy2
    have hKq : ((Ku * qty : ℤ) : ℚ) = S * (19 / 100) := by
      push_cast
      rw [← hK, hSdef]
      push_cast
      ring
    have hyK : S * c19 - ((Ku * qty : ℤ) : ℚ) = S / 450359962737049600 := by
      rw [hKq]
      rw [show c19 = 19 / 100 + 1 / 450359962737049600 from by norm_num [c19]]
      ring
    have habs2 : |S * c19 - ((Ku * qty : ℤ) : ℚ)| = |S| / 450359962737049600 := by
      rw [hyK, abs_div]
      norm_num
    apply pyRound_eq_of_abs_lt
    have htri := abs_sub_le (flRound (S * c19)) (S * c19) ((Ku * qty : ℤ) : ℚ)
    have hbound : |S| * c19 * (1 / 9007199254740992) + |S| / 450359962737049600 < 1 / 2 := by
      rw [show c19 = 19 / 100 + 1 / 450359962737049600 from by norm_num [c19]]
      nlinarith [hb, hS1]
    rw [hyabs] at herr
    linarith [htri, herr, habs2.le, habs2.ge, hbound]

/-- C4 (amended): for every known product id and integer quantity,
`calculate_quote` returns subtotal = unit price times quantity and
total = subtotal plus tax, and whenever the subtotal's magnitude is at most
2^52 (the regime in which the double-precision computation of
`round(subtotal * 0.19)` stays within half a currency unit of the exact
value) the tax equals exactly 19% of the subtotal — an integer for every
catalog price, hence equal to its rounding to the nearest currency unit; in
particular for GF-ALPHA (price 850000) and quantity 2 the quote is
1700000 / 323000 / 2023000. -/
theorem C4_quote_arithmetic :
    (∀ (pid : String) (qty : Int) (p : Product), get_product_by_id pid = some p →
      ∃ q : Quote, calculate_quote pid qty = .ok q ∧
        q.unit_price_clp = p.price ∧
        q.subtotal_neto = p.price * qty ∧
        q.total_con_iva = q.subtotal_neto + q.iva_19 ∧
        (|((q.subtotal_neto : ℤ) : ℚ)| ≤ 4503599627370496 →
          ((q.iva_19 : ℤ) : ℚ) = ((q.subtotal_neto : ℤ) : ℚ) * (19 / 100))) ∧
    (∃ q : Quote, calculate_quote "GF-ALPHA" 2 = .ok q ∧
      q.subtotal_neto = 1700000 ∧ q.iva_19 = 323000 ∧ q.total_con_iva = 2023000) := by
  constructor
  · intro pid qty p h
    have hmem := lookup_mem pid p h
    unfold calculate_quote
    rw [h]
    refine ⟨_, rfl, rfl, rfl, rfl, ?_⟩
    intro hbound
    rcases hmem with rfl | rfl | rfl
    · rw [show productAlpha.price = (850000 : ℤ) from rfl] at hbound ⊢
      rw [tax_float_regime 850000 161500 (by norm_num) (by norm_num) qty hbound]
      push_cast
      ring
    · rw [show productCell.price = (300000 : ℤ) from rfl] at hbound ⊢
      rw [tax_float_regime 300000 57000 (by norm_num) (by norm_num) qty hbound]
      push_cast
      ring
    · rw [show productJump.price = (95000 : ℤ) from rfl] at hbound ⊢
      rw [tax_float_regime 95000 18050 (by norm_num) (by norm_num) qty hbound]
      push_cast
      ring
  · unfold calculate_quote
    rw [show get_product_by_id "GF-ALPHA" = some productAlpha from rfl]
    refine ⟨_, rfl, ?_, ?_, ?_⟩
    · decide
    · show pyRound (flRound (flRound ((((850000 : ℤ) * 2 : ℤ)) : ℚ) * c19)) = 323000
      rw [tax_float_regime 850000 161500 (by norm_num) (by norm_num) 2 (by push_cast; norm_num)]
      decide
    · show (850000 : ℤ) * 2 +
          pyRound (flRound (flRound ((((850000 : ℤ) * 2 : ℤ)) : ℚ) * c19)) = 2023000
      rw [tax_float_regime 850000 161500 (by norm_num) (by norm_num) 2 (by push_cast; norm_num)]
      decide

/-- The double nearest the counterexample subtotal: the integer
850000000000000850000 needs 70 bits and is rounded to a multiple of 2^17. -/
theorem flRound_cx_subtotal :
    flRound ((850000000000000850000 : ℤ) : ℚ) = (850000000000000786432 : ℚ) := by
  have h217 : (2 : ℚ) ^ (17 : ℤ) = 131072 := by norm_num
  unfold flRound
  rw [if_neg (by push_cast; norm_num), if_neg (by push_cast; norm_num)]
  rw [flRoundPos_formula _ 17 ?h1 ?h2 ?hlo ?hhi]
  case h1 =>
    rw [h217]
    push_cast
    norm_num
  case h2 =>
    rw [h217]
    push_cast
    norm_num
  case hlo =>
    calc (2 : ℚ) ^ ((52 : ℤ) - (4200 : ℕ)) ≤ 1 / 8 := pow_low_le_eighth
      _ ≤ _ := by push_cast; norm_num
  case hhi =>
    calc ((850000000000000850000 : ℤ) : ℚ) < (2 : ℚ) ^ (90 : ℤ) := by push_cast; norm_num
      _ < _ := pow_2_90_lt
  rw [h217]
  have hpr : pyRound (((850000000000000850000 : ℤ) : ℚ) / 131072) = 6484985351562506 := by
    unfold pyRound
    have hfloor : ⌊(((850000000000000850000 : ℤ) : ℚ) / 131072)⌋ = 6484985351562506 := by
      rw [Int.floor_eq_iff]
      constructor
      · push_cast
        norm_num
      · push_cast
        norm_num
    rw [hfloor]
    rw [if_pos (by push_cast; norm_num)]
  rw [hpr]
  push_cast
  norm_num

/-- The double-precision product of the rounded subtotal with the double
nearest 0.19: the fraction rounds up to a multiple of 2^15. -/
theorem flRound_cx_product :
    flRound ((850000000000000786432 : ℚ) * c19) = (161500000000000163840 : ℚ) := by
  have h215 : (2 : ℚ) ^ (15 : ℤ) = 32768 := by norm_num
  unfold flRound
  rw [if_neg (by norm_num [c19]), if_neg (by norm_num [c19])]
  rw [flRoundPos_formula _ 15 ?h1 ?h2 ?hlo ?hhi]
  case h1 =>
    rw [h215]
    norm_num [c19]
  case h2 =>
    rw [h215]
    norm_num [c19]
  case hlo =>
    calc (2 : ℚ) ^ ((52 : ℤ) - (4200 : ℕ)) ≤ 1 / 8 := pow_low_le_eighth
      _ ≤ _ := by norm_num [c19]
  case hhi =>
    calc (850000000000000786432 : ℚ) * c19 < (2 : ℚ) ^ (90 : ℤ) := by norm_num [c19]
      _ < _ := pow_2_90_lt
  rw [h215]
  have hpr : pyRound ((850000000000000786432 : ℚ) * c19 / 32768) = 4928588867187505 := by
    unfold pyRound
    have hfloor : ⌊((850000000000000786432 : ℚ) * c19 / 32768)⌋ = 4928588867187504 := by
      rw [Int.floor_eq_iff]
      constructor
      · norm_num [c19]
      · push_cast
        norm_num [c19]
    rw [hfloor]
    rw [if_neg (by norm_num [c19]), if_pos (by norm_num [c19])]
    norm_num
  rw [hpr]
  push_cast
  norm_num

/-- C4 counterexample to the unamended claim: at GF-ALPHA and quantity
10^15 + 1 the program's double-precision tax is 161500000000000163840,
whereas 19% of the subtotal is exactly the integer 161500000000000161500, so
the tax is not the exact percentage rounded to the nearest currency unit. -/
theorem C4_quote_float_counterexample :
    ∃ q : Quote, calculate_quote "GF-ALPHA" 1000000000000001 = .ok q ∧
      q.subtotal_neto = 850000000000000850000 ∧
      q.iva_19 = 161500000000000163840 ∧
      ((q.subtotal_neto : ℤ) : ℚ) * (19 / 100) = ((161500000000000161500 : ℤ) : ℚ) ∧
      q.iva_19 ≠ 161500000000000161500 := by
  have hsub : ((850000 : ℤ) * 1000000000000001 : ℤ) = 850000000000000850000 := by norm_num
  have hiva : pyRound (flRound (flRound ((((850000 : ℤ) * 1000000000000001 : ℤ) : ℚ)) * c19)) =
      161500000000000163840 := by
    rw [hsub, flRound_cx_subtotal, flRound_cx_product]
    rw [show (161500000000000163840 : ℚ) = ((161500000000000163840 : ℤ) : ℚ) from by norm_num]
    rw [pyRound_intCast]
  unfold calculate_quote
  rw [show get_product_by_id "GF-ALPHA" = some productAlpha from rfl]
  refine ⟨_, rfl, by decide, ?_, ?_, ?_⟩
  · show pyRound (flRound (flRound ((((850000 : ℤ) * 1000000000000001 : ℤ) : ℚ)) * c19)) =
      161500000000000163840
    exact hiva
  · show (((850000 : ℤ) * 1000000000000001 : ℤ) : ℚ) * (19 / 100) =
      ((161500000000000161500 : ℤ) : ℚ)
    push_cast
    norm_num
  · show pyRound (flRound (flRound ((((850000 : ℤ) * 1000000000000001 : ℤ) : ℚ)) * c19)) ≠
      161500000000000161500
    rw [hiva]
    decide

/-- Witness for C4 at product GF-CELL and quantity 3 (inside the exact
regime). -/
theorem C4_quote_arithmetic_witness :
    ∃ q : Quote, calculate_quote "GF-CELL" 3 = .ok q ∧
      q.unit_price_clp = productCell.price ∧
      q.subtotal_neto = productCell.price * 3 ∧
      q.total_con_iva = q.subtotal_neto + q.iva_19 ∧
      ((q.iva_19 : ℤ) : ℚ) = ((q.subtotal_neto : ℤ) : ℚ) * (19 / 100) := by
  obtain ⟨q, h1, h2, h3, h4, h5⟩ := C4_quote_arithmetic.1 "GF-CELL" 3 productCell (by decide)
  refine ⟨q, h1, h2, h3, h4, h5 ?_⟩
  rw [h3]
  show |(((300000 : ℤ) * 3 : ℤ) : ℚ)| ≤ 4503599627370496
  push_cast
  norm_num

/-! ## Compatible products never raise (claim C7) -/

/-- C7: `get_compatible_products` is total over any backing catalog: an
unknown base id yields `[]`, and a product appears in the result exactly when
the base id resolves and some entry of its static compatibility list resolves
to that product — so references to removed ids are silently skipped, as the
concrete instance with GF-CELL removed from the catalog shows. -/
theorem C7_compatible_skips_unresolved :
    (∀ (cat : List Product) (pid : String),
      get_product_by_id_in cat pid = none → get_compatible_products_in cat pid = []) ∧
    (∀ (cat : List Product) (pid : String) (q : Product),
      q ∈ get_compatible_products_in cat pid ↔
        ∃ p, get_product_by_id_in cat pid = some p ∧
          ∃ cid ∈ p.compatible_with, get_product_by_id_in cat cid = some q) ∧
    get_compatible_products_in [productAlpha] "GF-ALPHA" = [] ∧
    get_compatible_products "GF-ALPHA" = [productCell] := by
  refine ⟨?_, ?_, ?_, ?_⟩
  · intro cat pid h
    unfold get_compatible_products_in
    rw [h]
  · intro cat pid q
    unfold get_compatible_products_in
    cases hc : get_product_by_id_in cat pid with
    | none => simp
    | some p => simp [List.mem_filterMap]
  · rfl
  · rfl

/-- Witness for C7 at an id absent from the catalog. -/
theorem C7_compatible_skips_unresolved_witness :
    get_compatible_products_in CATALOG "ZZ-MISSING" = [] :=
  C7_compatible_skips_unresolved.1 CATALOG "ZZ-MISSING" (by decide)

/-! ## Search characterization (claim C5) -/

theorem searchFilter_eq_filter (q c : String) (mp : Option Int) :
    ∀ l : List Product, searchFilter (pyLower q) c mp l = l.filter (searchSpecMatch q c mp) := by
  intro l
  induction l with
  | nil => rfl
  | cons p rest ih =>
    unfold searchFilter
    rw [List.filter_cons]
    by_cases h1 : c ≠ "" ∧ pyLower p.category ≠ pyLower c
    · rw [if_pos h1, ih]
      have hm : searchSpecMatch q c mp p = false := by
        unfold searchSpecMatch
        rcases h1 with ⟨hc, hcat⟩
        have hc2 : (c == "") = false := by simp [hc]
        have hcat2 : (pyLower p.category == pyLower c) = false := by simp [hcat]
        rw [hc2, hcat2]
        rfl
      rw [hm]
      simp
    · rw [if_neg h1]
      have hA : ((c == "") || (pyLower p.category == pyLower c)) = true := by
        rcases not_and_or.mp h1 with hc | hcat
        · simp at hc
          simp [hc]
        · simp at hcat
          simp [hcat]
      by_cases h2 : priceExceeds mp p.price = true
      · rw [if_pos h2, ih]
        have hB : specPriceOk mp p.price = false := by
          cases mp with
          | none => simp [priceExceeds] at h2
          | some m =>
            simp [priceExceeds] at h2
            simp [specPriceOk]
            omega
        have hm : searchSpecMatch q c mp p = false := by
          unfold searchSpecMatch
          rw [hA, hB]
          simp
        rw [hm]
        simp
      · rw [if_neg h2]
        have hB : specPriceOk mp p.price = true := by
          cases mp with
          | none => rfl
          | some m =>
            simp [priceExceeds] at h2
            simp [specPriceOk]
            omega
        by_cases h3 : pyLower q ≠ "" ∧ pyIn (pyLower q) (searchableText p) = false
        · rw [if_pos h3, ih]
          have hm : searchSpecMatch q c mp p = false := by
            unfold searchSpecMatch
            rw [hA, hB]
            rcases h3 with ⟨hq, hin⟩
            have hq2 : (pyLower q == "") = false := by simp [hq]
            rw [hq2, hin]
            rfl
          rw [hm]
          simp
        · rw [if_neg h3, ih]
          have hm : searchSpecMatch q c mp p = true := by
            unfold searchSpecMatch
            rw [hA, hB]
            rcases not_and_or.mp h3 with hq | hin
            · simp at hq
              simp [hq]
            · simp at hin
              simp [hin]
          rw [hm]
          simp

/-- C5 counterexample: the query "cmj sj" occurs case-insensitively in the
searchable text of GF-ALPHA (through the tags "CMJ SJ"), yet `search_products`
does not return GF-ALPHA — the code lowercases every searchable component
except the tags, so the match is not fully case-insensitive as claimed. -/
theorem C5_search_counterexample :
    search_products "cmj sj" "" none = [] ∧
    productAlpha ∈ CATALOG ∧
    pyIn (pyLower "cmj sj") (pyLower (searchableText productAlpha)) = true := by
  refine ⟨by decide, by decide, by decide⟩

/-- C5 (amended): `search_products` returns exactly the products whose
code-built searchable text — lowercased name, description, spec values,
use-cases and category, but tags as written — contains the lowercased query,
with the category and price filters conjunctive and absent filters no-ops;
no match yields the empty list, and search("imtp") returns exactly GF-CELL,
whose searchable text contains "imtp" case-insensitively. -/
theorem C5_search_characterization :
    (∀ (q c : String) (mp : Option Int),
      search_products q c mp = CATALOG.filter (searchSpecMatch q c mp)) ∧
    search_products "imtp" "" none = [productCell] ∧
    pyIn (pyLower "imtp") (pyLower (searchableText productCell)) = true := by
  refine ⟨?_, by decide, by decide⟩
  intro q c mp
  exact searchFilter_eq_filter q c mp CATALOG


/-! ## Sanitization is idempotent (claim C2) -/

theorem sanitizeToolCalls_idem :
    ∀ (l out : List PyVal), sanitizeToolCalls l = .ok out → sanitizeToolCalls out = .ok out := by
  intro l
  induction l with
  | nil =>
    intro out h
    simp only [sanitizeToolCalls] at h
    obtain rfl := (Except.ok.inj h).symm
    rfl
  | cons tc rest ih =>
    intro out h
    simp only [sanitizeToolCalls] at h
    split at h
    · rename_i tce
      split at h
      · exact absurd h (by simp)
      · rename_i idv hid
        split at h
        · exact absurd h (by simp)
        · rename_i fnv hfn
          split at h
          · exact absurd h (by simp)
          · rename_i others hothers
            obtain rfl := (Except.ok.inj h).symm
            have h2 := ih others hothers
            simp [sanitizeToolCalls, pySubscript, entGet, pyGet, h2]
    · exact ih out h

/-- C2: `_sanitize_message` is idempotent: whenever sanitizing a message dict
succeeds, sanitizing the output again returns the output unchanged, for every
role variant (system, user, assistant with or without tool calls, tool, or an
unrecognized role); errors of the first pass are Python exceptions, on which
both sides of the claimed equation diverge identically. -/
theorem C2_sanitize_idempotent :
    ∀ (msg m1 : List (String × PyVal)), _sanitize_message msg = .ok m1 →
      _sanitize_message m1 = .ok m1 := by
  have hpn : pyTruthy PyVal.pynone = false := rfl
  have hemp : pyTruthy (PyVal.str "") = false := rfl
  intro msg m1 h
  simp only [_sanitize_message] at h
  split at h
  · obtain rfl := (Except.ok.inj h).symm
    rfl
  · split at h
    · obtain rfl := (Except.ok.inj h).symm
      rfl
    · split at h
      · rename_i hrole
        split at h
        · split at h
          · exact absurd h (by simp)
          · rename_i elems hiter
            split at h
            · exact absurd h (by simp)
            · rename_i cleaned hclean
              split at h
              · obtain rfl := (Except.ok.inj h).symm
                generalize pyGet msg "content" PyVal.pynone = c0
                by_cases hc : pyTruthy c0 = true
                · rw [if_pos hc]
                  simp [_sanitize_message, isStrEq, pyGet, entGet, hc, hpn]
                · rw [if_neg hc]
                  simp [_sanitize_message, isStrEq, pyGet, entGet, hemp, hpn]
              · rename_i hne
                obtain rfl := (Except.ok.inj h).symm
                have hidem := sanitizeToolCalls_idem elems cleaned hclean
                have hne2 : cleaned.isEmpty = false := by simpa using hne
                have htc : pyTruthy (PyVal.list cleaned) = true := by
                  simp [pyTruthy, hne2]
                have hit : pyIter (PyVal.list cleaned) = .ok cleaned := rfl
                generalize pyGet msg "content" PyVal.pynone = c0
                by_cases hc : pyTruthy c0 = true
                · rw [if_pos hc]
                  simp [_sanitize_message, isStrEq, pyGet, entGet, hc, htc, hit, hidem, hne2]
                · rw [if_neg hc]
                  simp [_sanitize_message, isStrEq, pyGet, entGet, hemp, htc, hit, hidem, hne2]
        · obtain rfl := (Except.ok.inj h).symm
          generalize pyGet msg "content" PyVal.pynone = c0
          by_cases hc : pyTruthy c0 = true
          · rw [if_pos hc]
            simp [_sanitize_message, isStrEq, pyGet, entGet, hc, hpn]
          · rw [if_neg hc]
            simp [_sanitize_message, isStrEq, pyGet, entGet, hemp, hpn]
      · split at h
        · obtain rfl := (Except.ok.inj h).symm
          rfl
        · rename_i h1 h2 h3 h4
          obtain rfl := (Except.ok.inj h).symm
          generalize pyGet msg "role" (PyVal.str "") = r0 at h1 h2 h3 h4 ⊢
          generalize pyGet msg "content" (PyVal.str "") = c0
          simp [_sanitize_message, pyGet, entGet, h1, h2, h3, h4]

/-- Witness for C2 at an assistant `model_dump` carrying transport extras. -/
theorem C2_sanitize_idempotent_witness :
    _sanitize_message sampleSanitized = .ok sampleSanitized :=
  C2_sanitize_idempotent sampleModelDump sampleSanitized (by rfl)

/-! ## Batch processing and round iteration lemmas -/

theorem processToolCalls_none (tcs : List ToolCall) :
    ∀ st : AgentState, batchOk tcs = true → (processToolCalls tcs st).2 = none := by
  induction tcs with
  | nil =>
    intro st _
    rfl
  | cons tc rest ih =>
    intro st h
    simp only [batchOk, List.all_cons, Bool.and_eq_true] at h
    obtain ⟨h1, h2⟩ := h
    unfold toolCallOk at h1
    split at h1
    · exact absurd h1 (by simp)
    · rename_i args hjson
      split at h1
      · rename_i r hexec
        simp only [processToolCalls, hjson]
        rw [hexec]
        exact ih _ h2
      · exact absurd h1 (by simp)

theorem runLoop_exhausted (script : Nat → SvcMessage) :
    ∀ (fuel idx : Nat) (st : AgentState),
      (∀ i, i < fuel → (script (idx + i)).tool_calls ≠ [] ∧ batchOk (script (idx + i)).tool_calls = true) →
      runLoopAux script idx fuel st = (.exhausted, iterateRounds script idx fuel st, idx + fuel) := by
  intro fuel
  induction fuel with
  | zero =>
    intro idx st _
    rfl
  | succ fuel ih =>
    intro idx st H
    obtain ⟨hne, hok⟩ := H 0 (Nat.succ_pos fuel)
    simp only [Nat.add_zero] at hne hok
    simp only [runLoopAux]
    have hempty : (script idx).tool_calls.isEmpty = false := by
      cases hcal : (script idx).tool_calls with
      | nil => exact absurd hcal hne
      | cons a l => rfl
    rw [hempty]
    simp only [Bool.false_eq_true, if_false]
    have hp := processToolCalls_none (script idx).tool_calls
      { st with messages := st.messages ++ [sanitizedAssistant (script idx)] } hok
    rcases hpr : processToolCalls (script idx).tool_calls
        { st with messages := st.messages ++ [sanitizedAssistant (script idx)] } with ⟨st2, err⟩
    rw [hpr] at hp
    simp only at hp
    subst hp
    show runLoopAux script (idx + 1) fuel st2 =
      (TurnOutcome.exhausted, iterateRounds script idx (fuel + 1) st, idx + (fuel + 1))
    have ihres := ih (idx + 1) st2 (by
      intro i hi
      have := H (i + 1) (Nat.succ_lt_succ hi)
      rwa [show idx + (i + 1) = idx + 1 + i by omega] at this)
    rw [ihres]
    have hiter : iterateRounds script idx (fuel + 1) st =
        iterateRounds script (idx + 1) fuel (roundAppend (script idx) st) := rfl
    have hra : roundAppend (script idx) st = st2 := by
      unfold roundAppend
      rw [hpr]
    rw [hiter, hra]
    have harith : idx + 1 + fuel = idx + (fuel + 1) := by omega
    rw [harith]

theorem runLoop_calls_le (script : Nat → SvcMessage) :
    ∀ (fuel idx : Nat) (st : AgentState),
      (runLoopAux script idx fuel st).2.2 ≤ idx + fuel := by
  intro fuel
  induction fuel with
  | zero =>
    intro idx st
    have h : (runLoopAux script idx 0 st).2.2 = idx := rfl
    omega
  | succ fuel ih =>
    intro idx st
    simp only [runLoopAux]
    by_cases he : (script idx).tool_calls.isEmpty = true
    · rw [if_pos he]
      show idx + 1 ≤ idx + (fuel + 1)
      omega
    · rw [if_neg he]
      rcases hpr : processToolCalls (script idx).tool_calls
          { st with messages := st.messages ++ [sanitizedAssistant (script idx)] } with ⟨st2, err⟩
      cases err with
      | none =>
        show (runLoopAux script (idx + 1) fuel st2).2.2 ≤ idx + (fuel + 1)
        have := ih (idx + 1) st2
        omega
      | some e =>
        show idx + 1 ≤ idx + (fuel + 1)
        omega

theorem processStream_agrees (tcs : List ToolCall) :
    ∀ st : AgentState,
      (processToolCallsStream tcs st).1 = (processToolCalls tcs st).1 ∧
      (processToolCallsStream tcs st).2.2 = (processToolCalls tcs st).2 := by
  induction tcs with
  | nil =>
    intro st
    exact ⟨rfl, rfl⟩
  | cons tc rest ih =>
    intro st
    cases hjson : jsonLoads tc.function.arguments with
    | none =>
      constructor
      · simp only [processToolCallsStream, processToolCalls, hjson]
      · simp only [processToolCallsStream, processToolCalls, hjson]
    | some args =>
      cases hexec : execute_tool tc.function.name args with
      | error e =>
        constructor
        · simp only [processToolCallsStream, processToolCalls, hjson, hexec]
        · simp only [processToolCallsStream, processToolCalls, hjson, hexec]
      | ok result =>
        have hrec := ih { st with
          messages := st.messages ++ [Msg.tool tc.id result],
          tool_log := st.tool_log ++ [(tc.function.name, args)] }
        constructor
        · simp only [processToolCallsStream, processToolCalls, hjson, hexec]
          exact hrec.1
        · simp only [processToolCallsStream, processToolCalls, hjson, hexec]
          exact hrec.2

theorem runLoopStream_exhausted (script : Nat → SvcMessage) (frags : List String) :
    ∀ (fuel idx : Nat) (st : AgentState),
      (∀ i, i < fuel → (script (idx + i)).tool_calls ≠ [] ∧ batchOk (script (idx + i)).tool_calls = true) →
      ∃ ys : List String,
        runLoopStreamAux script frags idx fuel st =
          (.exhausted, iterateRounds script idx fuel st, ys ++ [streamExhaustedNotice], idx + fuel) := by
  intro fuel
  induction fuel with
  | zero =>
    intro idx st _
    exact ⟨[], rfl⟩
  | succ fuel ih =>
    intro idx st H
    obtain ⟨hne, hok⟩ := H 0 (Nat.succ_pos fuel)
    simp only [Nat.add_zero] at hne hok
    simp only [runLoopStreamAux]
    have hempty : ¬((script idx).tool_calls.isEmpty = true) := by
      cases hcal : (script idx).tool_calls with
      | nil => exact absurd hcal hne
      | cons a l => simp
    rw [if_neg hempty]
    have hagree := processStream_agrees (script idx).tool_calls
      { st with messages := st.messages ++ [sanitizedAssistant (script idx)] }
    have hp := processToolCalls_none (script idx).tool_calls
      { st with messages := st.messages ++ [sanitizedAssistant (script idx)] } hok
    rcases hpr : processToolCallsStream (script idx).tool_calls
        { st with messages := st.messages ++ [sanitizedAssistant (script idx)] } with ⟨st2, ys0, err⟩
    rw [hpr] at hagree
    have herr : err = none := by
      have h2 := hagree.2
      simp only at h2
      rw [h2, hp]
    subst herr
    obtain ⟨ys1, ihres⟩ := ih (idx + 1) st2 (by
      intro i hi
      have := H (i + 1) (Nat.succ_lt_succ hi)
      rwa [show idx + (i + 1) = idx + 1 + i by omega] at this)
    refine ⟨ys0 ++ ys1, ?_⟩
    show ((runLoopStreamAux script frags (idx + 1) fuel st2).1,
          (runLoopStreamAux script frags (idx + 1) fuel st2).2.1,
          ys0 ++ (runLoopStreamAux script frags (idx + 1) fuel st2).2.2.1,
          (runLoopStreamAux script frags (idx + 1) fuel st2).2.2.2) =
      (TurnOutcome.exhausted, iterateRounds script idx (fuel + 1) st,
        ys0 ++ ys1 ++ [streamExhaustedNotice], idx + (fuel + 1))
    rw [ihres]
    have hra : roundAppend (script idx) st = st2 := by
      unfold roundAppend
      exact hagree.1.symm
    have hiter : iterateRounds script idx (fuel + 1) st =
        iterateRounds script (idx + 1) fuel (roundAppend (script idx) st) := rfl
    rw [hiter, hra]
    have harith : idx + 1 + fuel = idx + (fuel + 1) := by omega
    rw [harith]
    simp

theorem processToolCalls_messages (tcs : List ToolCall) :
    ∀ (st : AgentState) (m : Msg), m ∈ (processToolCalls tcs st).1.messages →
      m ∈ st.messages ∨ ∃ i c, m = Msg.tool i c := by
  induction tcs with
  | nil =>
    intro st m hm
    exact Or.inl hm
  | cons tc rest ih =>
    intro st m hm
    cases hjson : jsonLoads tc.function.arguments with
    | none =>
      simp only [processToolCalls, hjson] at hm
      exact Or.inl hm
    | some args =>
      cases hexec : execute_tool tc.function.name args with
      | error e =>
        simp only [processToolCalls, hjson, hexec] at hm
        exact Or.inl hm
      | ok result =>
        simp only [processToolCalls, hjson, hexec] at hm
        rcases ih _ m hm with hin | htool
        · simp only [List.mem_append, List.mem_singleton] at hin
          rcases hin with hin | rfl
          · exact Or.inl hin
          · exact Or.inr ⟨tc.id, result, rfl⟩
        · exact Or.inr htool

theorem iterateRounds_messages (script : Nat → SvcMessage) :
    ∀ (fuel idx : Nat) (st : AgentState) (m : Msg),
      (∀ i, i < fuel → (script (idx + i)).tool_calls ≠ []) →
      m ∈ (iterateRounds script idx fuel st).messages →
      m ∈ st.messages ∨ (∃ i c, m = Msg.tool i c) ∨
        ∃ c tcs, tcs ≠ [] ∧ m = Msg.assistant c tcs := by
  intro fuel
  induction fuel with
  | zero =>
    intro idx st m _ hm
    exact Or.inl hm
  | succ fuel ih =>
    intro idx st m H hm
    have hstep : iterateRounds script idx (fuel + 1) st =
        iterateRounds script (idx + 1) fuel (roundAppend (script idx) st) := rfl
    rw [hstep] at hm
    rcases ih (idx + 1) (roundAppend (script idx) st) m (by
      intro i hi
      have := H (i + 1) (Nat.succ_lt_succ hi)
      rwa [show idx + (i + 1) = idx + 1 + i by omega] at this) hm with hin | htool | hassist
    · unfold roundAppend at hin
      rcases processToolCalls_messages _ _ m hin with hin2 | htool
      · simp only [List.mem_append, List.mem_singleton] at hin2
        rcases hin2 with hin2 | rfl
        · exact Or.inl hin2
        · refine Or.inr (Or.inr ⟨contentOrEmpty (script idx), (script idx).tool_calls, ?_, rfl⟩)
          exact H 0 (Nat.succ_pos fuel)
      · exact Or.inr (Or.inl htool)
    · exact Or.inr (Or.inl htool)
    · exact Or.inr (Or.inr hassist)


/-! ## Round budget (claim C1) -/

/-- C1 (amended): for every response sequence in which each response carries
at least one tool request whose argument string parses as JSON and whose
execution returns a payload, a user turn makes exactly `MAX_TOOL_ROUNDS`
service calls and returns the fixed fallback message; and for every response
sequence whatsoever, a turn never makes more than `MAX_TOOL_ROUNDS` calls. -/
theorem C1_round_budget :
    (∀ (script : Nat → SvcMessage) (u : String) (st : AgentState),
      (∀ i, i < MAX_TOOL_ROUNDS → (script i).tool_calls ≠ [] ∧ batchOk (script i).tool_calls = true) →
      (chat script u st).1 = .ok fallbackAnswer ∧ (chat script u st).2.2 = MAX_TOOL_ROUNDS) ∧
    (∀ (script : Nat → SvcMessage) (u : String) (st : AgentState),
      (chat script u st).2.2 ≤ MAX_TOOL_ROUNDS) := by
  constructor
  · intro script u st H
    have H0 : ∀ i, i < MAX_TOOL_ROUNDS →
        (script (0 + i)).tool_calls ≠ [] ∧ batchOk (script (0 + i)).tool_calls = true := by
      intro i hi
      rw [Nat.zero_add]
      exact H i hi
    have hex := runLoop_exhausted script MAX_TOOL_ROUNDS 0
      { st with messages := st.messages ++ [.user u] } H0
    constructor
    · show chatResult (runLoopAux script 0 MAX_TOOL_ROUNDS
        { st with messages := st.messages ++ [.user u] }).1 = .ok fallbackAnswer
      rw [hex]
      rfl
    · show (runLoopAux script 0 MAX_TOOL_ROUNDS
        { st with messages := st.messages ++ [.user u] }).2.2 = MAX_TOOL_ROUNDS
      rw [hex]
      show 0 + MAX_TOOL_ROUNDS = MAX_TOOL_ROUNDS
      omega
  · intro script u st
    show (runLoopAux script 0 MAX_TOOL_ROUNDS
      { st with messages := st.messages ++ [.user u] }).2.2 ≤ MAX_TOOL_ROUNDS
    have := runLoop_calls_le script MAX_TOOL_ROUNDS 0
      { st with messages := st.messages ++ [.user u] }
    omega

/-- C1 counterexample to the unamended claim: a response sequence in which
every response carries a tool request, but the first request's argument
string is not JSON — the turn raises out of `json.loads` after a single
service call instead of reaching the Exhausted outcome after ten. -/
theorem C1_round_budget_counterexample :
    (chat badArgsScript "hola" initialAgentState).1 = Except.error PyErr.jsonError ∧
    (chat badArgsScript "hola" initialAgentState).2.2 = 1 :=
  ⟨rfl, rfl⟩

/-- Witness for C1 on a script requesting one well-formed tool call per
round. -/
theorem C1_round_budget_witness :
    (chat allToolRoundsScript "hola" initialAgentState).1 = .ok fallbackAnswer ∧
    (chat allToolRoundsScript "hola" initialAgentState).2.2 = MAX_TOOL_ROUNDS :=
  C1_round_budget.1 allToolRoundsScript "hola" initialAgentState
    (fun i hi => ⟨by simp [allToolRoundsScript], by rfl⟩)

/-! ## History invariant under mid-batch JSON failure (claim C3) -/

/-- C3: the code violates the history invariant the spec mandates.  On a
response whose batch holds a well-formed tool call followed by one with an
unparsable argument string, the turn raises out of `json.loads`, leaving the
assistant message with a pending (unanswered) tool request in the
conversation state, so the transcript at the start of the next user turn
fails `historyOK` — although the invariant held when the turn began. -/
theorem C3_history_invariant_bug :
    (chat midBatchBadScript "hola" initialAgentState).1 = Except.error PyErr.jsonError ∧
    historyOK ((chat midBatchBadScript "hola" initialAgentState).2.1.messages
      ++ [Msg.user "otra consulta"]) = false ∧
    historyOK (initialAgentState.messages ++ [Msg.user "hola"]) = true :=
  ⟨rfl, rfl, rfl⟩

/-! ## Unknown tool names are not fatal (claim C6) -/

theorem execute_tool_unknown (name : String) (args : PyVal)
    (h : name ∉ registeredToolNames) :
    execute_tool name args =
      .ok (dumps (.dict [("error", .str ("Herramienta \x27" ++ name ++ "\x27 no reconocida."))])) := by
  simp only [registeredToolNames, List.mem_cons, List.not_mem_nil, or_false, not_or] at h
  obtain ⟨h1, h2, h3, h4, h5, h6, h7, h8, h9⟩ := h
  unfold execute_tool
  rw [if_neg (by simp [h1]), if_neg (by simp [h2]), if_neg (by simp [h3]),
      if_neg (by simp [h4]), if_neg (by simp [h5]), if_neg (by simp [h6]),
      if_neg (by simp [h7]), if_neg (by simp [h8]), if_neg (by simp [h9])]

/-- C6: for every tool name outside the nine registered operations,
`execute_tool` returns the textual JSON error payload instead of raising, and
the loop's batch processor appends that payload as a Tool Result message and
continues with the remaining requests of the same batch. -/
theorem C6_unknown_tool_continues :
    (∀ (name : String) (args : PyVal), name ∉ registeredToolNames →
      execute_tool name args =
        .ok (dumps (.dict [("error", .str ("Herramienta \x27" ++ name ++ "\x27 no reconocida."))]))) ∧
    (∀ (tc : ToolCall) (rest : List ToolCall) (st : AgentState) (args : PyVal),
      tc.function.name ∉ registeredToolNames →
      jsonLoads tc.function.arguments = some args →
      processToolCalls (tc :: rest) st =
        processToolCalls rest
          { messages := st.messages ++
              [Msg.tool tc.id (dumps (.dict [("error",
                PyVal.str ("Herramienta \x27" ++ tc.function.name ++ "\x27 no reconocida."))]))],
            tool_log := st.tool_log ++ [(tc.function.name, args)] }) := by
  constructor
  · exact execute_tool_unknown
  · intro tc rest st args hmem hjson
    simp only [processToolCalls, hjson, execute_tool_unknown tc.function.name args hmem]

/-- Witness for C6 at the unregistered name "herramienta_x" with a second
batch entry remaining. -/
theorem C6_unknown_tool_continues_witness :
    processToolCalls [tcUnknown] initialAgentState =
      processToolCalls []
        { messages := initialAgentState.messages ++
            [Msg.tool tcUnknown.id (dumps (.dict [("error",
              PyVal.str ("Herramienta \x27" ++ tcUnknown.function.name ++ "\x27 no reconocida."))]))],
          tool_log := initialAgentState.tool_log ++ [(tcUnknown.function.name, PyVal.dict [])] } :=
  C6_unknown_tool_continues.2 tcUnknown [] initialAgentState (PyVal.dict [])
    (by decide) (by rfl)

/-! ## Exhaustion leaves history unchanged (claim C8) -/

/-- C8: when the round budget is exhausted, the fallback message returned by
the non-streaming path (and the warning yielded by the streaming path) is not
appended to the conversation state: the final message list is exactly the one
standing at the end of the last tool batch, in both paths, and every message
added during the turn is the user message, a Tool Result, or an assistant
message that carries tool calls — never a plain assistant message. -/
theorem C8_exhaustion_preserves_history :
    ∀ (script : Nat → SvcMessage) (frags : List String) (u : String) (st : AgentState),
      (∀ i, i < MAX_TOOL_ROUNDS → (script i).tool_calls ≠ [] ∧ batchOk (script i).tool_calls = true) →
      (chat script u st).1 = .ok fallbackAnswer ∧
      (chat script u st).2.1 =
        iterateRounds script 0 MAX_TOOL_ROUNDS { st with messages := st.messages ++ [.user u] } ∧
      (chat_stream script frags u st).2.1 = (chat script u st).2.1 ∧
      (∃ ys, (chat_stream script frags u st).2.2.1 = ys ++ [streamExhaustedNotice]) ∧
      (∀ m, m ∈ (chat script u st).2.1.messages →
        m ∈ st.messages ∨ m = Msg.user u ∨ (∃ i c, m = Msg.tool i c) ∨
          ∃ c tcs, tcs ≠ [] ∧ m = Msg.assistant c tcs) := by
  intro script frags u st H
  have H0 : ∀ i, i < MAX_TOOL_ROUNDS →
      (script (0 + i)).tool_calls ≠ [] ∧ batchOk (script (0 + i)).tool_calls = true := by
    intro i hi
    rw [Nat.zero_add]
    exact H i hi
  have hex := runLoop_exhausted script MAX_TOOL_ROUNDS 0
    { st with messages := st.messages ++ [.user u] } H0
  obtain ⟨ys, hstr⟩ := runLoopStream_exhausted script frags MAX_TOOL_ROUNDS 0
    { st with messages := st.messages ++ [.user u] } H0
  refine ⟨?_, ?_, ?_, ?_, ?_⟩
  · show chatResult (runLoopAux script 0 MAX_TOOL_ROUNDS
      { st with messages := st.messages ++ [.user u] }).1 = .ok fallbackAnswer
    rw [hex]
    rfl
  · show (runLoopAux script 0 MAX_TOOL_ROUNDS
      { st with messages := st.messages ++ [.user u] }).2.1 = _
    rw [hex]
  · show (runLoopStreamAux script frags 0 MAX_TOOL_ROUNDS
        { st with messages := st.messages ++ [.user u] }).2.1 =
      (runLoopAux script 0 MAX_TOOL_ROUNDS
        { st with messages := st.messages ++ [.user u] }).2.1
    rw [hex, hstr]
  · refine ⟨ys, ?_⟩
    show (runLoopStreamAux script frags 0 MAX_TOOL_ROUNDS
      { st with messages := st.messages ++ [.user u] }).2.2.1 = ys ++ [streamExhaustedNotice]
    rw [hstr]
    
  · intro m hm
    have hm2 : m ∈ (runLoopAux script 0 MAX_TOOL_ROUNDS
        { st with messages := st.messages ++ [.user u] }).2.1.messages := hm
    rw [hex] at hm2
    rcases iterateRounds_messages script MAX_TOOL_ROUNDS 0
        { st with messages := st.messages ++ [.user u] } m
        (fun i hi => by
          rw [Nat.zero_add]
          exact (H i hi).1) hm2 with hin | htool | hassist
    · simp only [List.mem_append, List.mem_singleton] at hin
      rcases hin with hin | rfl
      · exact Or.inl hin
      · exact Or.inr (Or.inl rfl)
    · exact Or.inr (Or.inr (Or.inl htool))
    · exact Or.inr (Or.inr (Or.inr hassist))

/-- Witness for C8 on the all-tool-rounds script. -/
theorem C8_exhaustion_preserves_history_witness :
    (chat allToolRoundsScript "hola" initialAgentState).1 = .ok fallbackAnswer ∧
    (chat allToolRoundsScript "hola" initialAgentState).2.1 =
      iterateRounds allToolRoundsScript 0 MAX_TOOL_ROUNDS
        { initialAgentState with messages := initialAgentState.messages ++ [.user "hola"] } ∧
    (chat_stream allToolRoundsScript [] "hola" initialAgentState).2.1 =
      (chat allToolRoundsScript "hola" initialAgentState).2.1 ∧
    (∃ ys, (chat_stream allToolRoundsScript [] "hola" initialAgentState).2.2.1 =
      ys ++ [streamExhaustedNotice]) ∧
    (∀ m, m ∈ (chat allToolRoundsScript "hola" initialAgentState).2.1.messages →
      m ∈ initialAgentState.messages ∨ m = Msg.user "hola" ∨ (∃ i c, m = Msg.tool i c) ∨
        ∃ c tcs, tcs ≠ [] ∧ m = Msg.assistant c tcs) :=
  C8_exhaustion_preserves_history allToolRoundsScript [] "hola" initialAgentState
    (fun i hi => ⟨by simp [allToolRoundsScript], by rfl⟩)

/-! ## Streaming and non-streaming agreement (claim C9) -/

theorem empty_append_str (x : String) : "" ++ x = x := by
  cases x with
  | mk data => rfl

theorem strJoin_filter (l : List String) :
    strJoin (l.filter (fun s => s ≠ "")) = strJoin l := by
  induction l with
  | nil => rfl
  | cons s rest ih =>
    by_cases hs : s = ""
    · subst hs
      simp only [List.filter_cons]
      rw [if_neg (by simp)]
      rw [ih]
      show strJoin rest = strJoin ("" :: rest)
      show strJoin rest = "" ++ strJoin rest
      rw [empty_append_str]
    · simp only [List.filter_cons]
      rw [if_pos (by simp [hs])]
      show s ++ strJoin (rest.filter (fun s => s ≠ "")) = s ++ strJoin rest
      rw [ih]

/-- C9: on a scripted final-answer response whose content is the same for
every service call of the turn (zero tool requests; the streaming call's
fragments concatenate to the same content), the streaming and non-streaming
paths append the same assistant message to the same history, and the
concatenation of the fragments yielded by `chat_stream` equals the string
returned by `chat`. -/
theorem C9_stream_matches_batch :
    ∀ (script : Nat → SvcMessage) (frags : List String) (u : String) (st : AgentState) (c : String),
      (script 0).tool_calls = [] →
      contentOrEmpty (script 0) = c →
      strJoin frags = c →
      (chat script u st).1 = .ok c ∧
      (chat script u st).2.1.messages = (st.messages ++ [Msg.user u]) ++ [Msg.assistant c []] ∧
      (chat_stream script frags u st).2.1.messages = (chat script u st).2.1.messages ∧
      (chat_stream script frags u st).2.1.tool_log = (chat script u st).2.1.tool_log ∧
      strJoin (chat_stream script frags u st).2.2.1 = c := by
  intro script frags u st c h0 hc hj
  have h10 : MAX_TOOL_ROUNDS = 9 + 1 := rfl
  have hempty : (script 0).tool_calls.isEmpty = true := by
    rw [h0]
    rfl
  have hrun : runLoopAux script 0 MAX_TOOL_ROUNDS { st with messages := st.messages ++ [Msg.user u] } =
      (.final c, { st with messages := (st.messages ++ [Msg.user u]) ++ [Msg.assistant c []] }, 1) := by
    rw [h10]
    simp only [runLoopAux]
    rw [if_pos hempty, hc]
  have hstream : runLoopStreamAux script frags 0 MAX_TOOL_ROUNDS
      { st with messages := st.messages ++ [Msg.user u] } =
      (.final c, { st with messages := (st.messages ++ [Msg.user u]) ++ [Msg.assistant c []] },
        frags.filter (fun s => s ≠ ""), 2) := by
    rw [h10]
    simp only [runLoopStreamAux]
    rw [if_pos hempty]
    rw [strJoin_filter, hj]
  refine ⟨?_, ?_, ?_, ?_, ?_⟩
  · show chatResult (runLoopAux script 0 MAX_TOOL_ROUNDS
      { st with messages := st.messages ++ [.user u] }).1 = .ok c
    rw [hrun]
    rfl
  · show (runLoopAux script 0 MAX_TOOL_ROUNDS
      { st with messages := st.messages ++ [.user u] }).2.1.messages = _
    rw [hrun]
  · show (runLoopStreamAux script frags 0 MAX_TOOL_ROUNDS
        { st with messages := st.messages ++ [.user u] }).2.1.messages =
      (runLoopAux script 0 MAX_TOOL_ROUNDS
        { st with messages := st.messages ++ [.user u] }).2.1.messages
    rw [hrun, hstream]
  · show (runLoopStreamAux script frags 0 MAX_TOOL_ROUNDS
        { st with messages := st.messages ++ [.user u] }).2.1.tool_log =
      (runLoopAux script 0 MAX_TOOL_ROUNDS
        { st with messages := st.messages ++ [.user u] }).2.1.tool_log
    rw [hrun, hstream]
  · show strJoin (runLoopStreamAux script frags 0 MAX_TOOL_ROUNDS
      { st with messages := st.messages ++ [.user u] }).2.2.1 = c
    rw [hstream]
    show strJoin (frags.filter (fun s => s ≠ "")) = c
    rw [strJoin_filter, hj]

/-- Witness for C9 at a concrete scripted final answer. -/
theorem C9_stream_matches_batch_witness :
    (chat (finalAnswerScript "hola respuesta") "hola" initialAgentState).1 = .ok "hola respuesta" ∧
    (chat (finalAnswerScript "hola respuesta") "hola" initialAgentState).2.1.messages =
      (initialAgentState.messages ++ [Msg.user "hola"]) ++ [Msg.assistant "hola respuesta" []] ∧
    (chat_stream (finalAnswerScript "hola respuesta") ["hola ", "respuesta"] "hola" initialAgentState).2.1.messages =
      (chat (finalAnswerScript "hola respuesta") "hola" initialAgentState).2.1.messages ∧
    (chat_stream (finalAnswerScript "hola respuesta") ["hola ", "respuesta"] "hola" initialAgentState).2.1.tool_log =
      (chat (finalAnswerScript "hola respuesta") "hola" initialAgentState).2.1.tool_log ∧
    strJoin (chat_stream (finalAnswerScript "hola respuesta") ["hola ", "respuesta"] "hola" initialAgentState).2.2.1 =
      "hola respuesta" :=
  C9_stream_matches_batch (finalAnswerScript "hola respuesta") ["hola ", "respuesta"]
    "hola" initialAgentState "hola respuesta" (by rfl) (by rfl) (by rfl)

end GarridoSportech
